import Mathlib

/-!
# Shallow embedding of the dwm core (src/dwm.c, src/config.h)

This file embeds the data model and the operations of the window manager in
Lean and proves properties of the embedding.

Two worlds are used:

* `Dwm` — a single-monitor world with full `Client` records (geometry, size
  hints, borders, flags).  It embeds `applysizehints`, `resize`,
  `resizeclient`, the five layout arrangers, `arrange`, `setfullscreen`,
  `setmfact`, `detachstack`/`attachstack`/`focus` on the focus stack,
  `toggletag`, `view`, `toggleview` and `createmon`.  All geometry claims are
  settled here.  `selected_monitor` is the world's unique monitor, matching
  the code paths exercised by the claims (`resizeclient` reads
  `selected_monitor` directly).
* `DwmLists` — a multi-monitor world that keeps only the list structure
  (client list, focus stack, monitor back-references).  It embeds `attach`,
  `detach`, `attachstack`, `detachstack`, `sendmon` and `dirtomon` and is
  used for the structural invariant claims.

C numeric conventions used throughout:

* C `int` is embedded as `Int`; where a computation is performed in
  `unsigned int` and the wrap-around is observable (the
  `gapincr = -2 * borderpx` trick in `resizeclient`), the arithmetic is done
  modulo `2^32` via `u32`/`toInt32`.
* C `%` and `/` on `int` truncate toward zero: `Int.tmod` / `Int.tdiv`.
* C `float` values (`mfact`, `mina`, `maxa`) are embedded as `ℚ`;
  float-to-integer conversion truncates toward zero (`cTrunc`).  For every
  concrete value appearing in the claims the rational and the IEEE float
  computation agree.
-/

namespace Dwm

/-- 2^32, the modulus of C `unsigned int` arithmetic. -/
def u32Mod : Int := 4294967296

/-- Value of an `Int` reduced to the C `unsigned int` range `[0, 2^32)`. -/
def u32 (a : Int) : Int := a % u32Mod

/-- Conversion of an `unsigned int` (or any mod-2^32 residue) back to a C
`int`, i.e. the representative in `[-2^31, 2^31)`. -/
def toInt32 (a : Int) : Int :=
  if a % u32Mod < 2147483648 then a % u32Mod else a % u32Mod - u32Mod

/-- C float-to-int conversion: truncation toward zero. -/
def cTrunc (q : ℚ) : Int := if 0 ≤ q then ⌊q⌋ else -⌊-q⌋

/-! ## Configuration constants (src/config.h) -/

/-- `static const unsigned int borderpx = 1;` -/
def borderpx : Int := 1

/-- `static const int window_gap = 6;` -/
def window_gap : Int := 6

/-- `static const float mfact = 0.55;` (float embedded as ℚ). -/
def mfactC : ℚ := 11 / 20

/-- `static const int nmaster = 1;` -/
def nmasterC : Int := 1

/-- `static const int resizehints = 1;` -/
def resizehints : Bool := true

/-- Nine tags in `config.h`, so `TAGMASK = (1 << 9) - 1`. -/
def TAGMASK : Nat := 511

/-! ## Data model (structs `Client`, `Monitor`, `Layout` in dwm.c) -/

/-- The arrange function pointers that can occur in the layout table. -/
inductive AFn where
  | tileF
  | monocleF
  | bstackF
  | bstackhorizF
deriving DecidableEq

/-- `struct Layout { const char *symbol; void (*arrange)(Monitor *); }`;
a `none` arrange pointer is the floating layout. -/
structure LayoutL where
  symbol : String
  arrange : Option AFn
deriving DecidableEq

/-- The `layouts` table of `config.h`. -/
def layoutsC : List LayoutL :=
  [⟨"[]=", some AFn.tileF⟩, ⟨"><>", none⟩, ⟨"[M]", some AFn.monocleF⟩,
   ⟨"TTT", some AFn.bstackF⟩, ⟨"===", some AFn.bstackhorizF⟩]

/-- `struct Client` (window id, title and X-only fields are omitted; the
field `wcBorder` is a ghost recording the `border_width` of the last
`XConfigureWindow` request issued by `resizeclient`). -/
structure GClient where
  mina : ℚ
  maxa : ℚ
  x_pos : Int
  y_pos : Int
  width : Int
  height : Int
  oldx : Int
  oldy : Int
  oldw : Int
  oldh : Int
  basew : Int
  baseh : Int
  incw : Int
  inch : Int
  maxw : Int
  maxh : Int
  minw : Int
  minh : Int
  bw : Int
  oldbw : Int
  tags : Nat
  isfixed : Bool
  isfloating : Bool
  isurgent : Bool
  neverfocus : Bool
  oldstate : Bool
  isfullscreen : Bool
  wcBorder : Int
deriving DecidableEq

/-- `struct Monitor` for the single monitor of this world (bar window and
`next` pointer omitted).  Clients are referred to by numeric ids into the
state's client map; `clients` is the client list, `stack` the focus stack. -/
structure GMon where
  ltsymbol : String
  mfact : ℚ
  nmaster : Int
  num : Int
  bar_y : Int
  mon_x : Int
  mon_y : Int
  mon_width : Int
  mon_height : Int
  window_x : Int
  window_y : Int
  window_width : Int
  window_height : Int
  seltags : Bool
  sellt : Bool
  tagset0 : Nat
  tagset1 : Nat
  showbar : Bool
  topbar : Bool
  clients : List Nat
  selected_client : Option Nat
  stack : List Nat
  lt0 : LayoutL
  lt1 : LayoutL
deriving DecidableEq

/-- World state: the (selected) monitor, the client store, and the globals
`sw`, `sh` (screen size) and `bh` (bar height). -/
structure GState where
  mon : GMon
  cmap : List (Nat × GClient)
  sw : Int
  sh : Int
  bh : Int
deriving DecidableEq

/-- First-match lookup in the client store. -/
def lookupC : List (Nat × GClient) → Nat → Option GClient
  | [], _ => none
  | (k, v) :: rest, cid => if k = cid then some v else lookupC rest cid

/-- Replace the first binding of `cid` (no effect when absent; in C the
client pointer always refers to a live record). -/
def updateC : List (Nat × GClient) → Nat → GClient → List (Nat × GClient)
  | [], _, _ => []
  | (k, v) :: rest, cid, c => if k = cid then (k, c) :: rest else (k, v) :: updateC rest cid c

/-- `monitor->tagset[monitor->seltags]`. -/
def tagsetCur (m : GMon) : Nat := if m.seltags then m.tagset1 else m.tagset0

/-- `monitor->lt[monitor->sellt]`. -/
def curlt (m : GMon) : LayoutL := if m.sellt then m.lt1 else m.lt0

/-- `ISVISIBLE(C)`: `C->tags & C->mon->tagset[C->mon->seltags]`. -/
def ISVISIBLE (m : GMon) (c : GClient) : Bool := (c.tags &&& tagsetCur m) ≠ 0

/-- `WIDTH(X) = (X)->width + 2 * (X)->bw + window_gap` (this repository adds
`window_gap` to the macro). -/
def cWIDTH (c : GClient) : Int := c.width + 2 * c.bw + window_gap

/-- `HEIGHT(X) = (X)->height + 2 * (X)->bw + window_gap`. -/
def cHEIGHT (c : GClient) : Int := c.height + 2 * c.bw + window_gap

/-- The predicate of `nexttiled`: not floating and visible. -/
def tiledPred (st : GState) (cid : Nat) : Bool :=
  match lookupC st.cmap cid with
  | some c => !c.isfloating && ISVISIBLE st.mon c
  | none => false

/-- The clients produced by iterating `nexttiled` over the client list.
`resize` changes only geometry fields, never `isfloating` or `tags`, so
computing the list once is equivalent to re-evaluating `nexttiled` after
every step as the C loops do. -/
def nexttiledList (st : GState) : List Nat := st.mon.clients.filter (tiledPred st)

/-- Number of visible tiled clients (the `n` counted by `resizeclient`,
`tile`, `bstack`, `bstackhoriz`). -/
def tiledCount (st : GState) : Int := (nexttiledList st).length

/-- Result of `applysizehints`: the C function returns `changed` and writes
the adjusted rectangle back through its pointer arguments. -/
structure AshR where
  changed : Bool
  x : Int
  y : Int
  w : Int
  h : Int
deriving DecidableEq

/-!  ### `applysizehints` (dwm.c lines 315-379)

Pure function of the client record, the proposed rectangle, the monitor and
the globals.  When `*h` is zero the C code divides by zero in a float; `ℚ`
division then yields `0` — no claim exercises that corner. -/
def applysizehints (st : GState) (c : GClient) (x y w h : Int) (interact : Bool) :
    AshR :=
  let w := max 1 w
  let h := max 1 h
  let xy :=
    if interact then
      let x := if x > st.sw then st.sw - cWIDTH c else x
      let y := if y > st.sh then st.sh - cHEIGHT c else y
      let x := if x + w + 2 * c.bw < 0 then 0 else x
      let y := if y + h + 2 * c.bw < 0 then 0 else y
      (x, y)
    else
      let m := st.mon
      let x := if x ≥ m.window_x + m.window_width then m.window_x + m.window_width - cWIDTH c else x
      let y := if y ≥ m.window_y + m.window_height then m.window_y + m.window_height - cHEIGHT c else y
      let x := if x + w + 2 * c.bw ≤ m.window_x then m.window_x else x
      let y := if y + h + 2 * c.bw ≤ m.window_y then m.window_y else y
      (x, y)
  let x := xy.1
  let y := xy.2
  let h := if h < st.bh then st.bh else h
  let w := if w < st.bh then st.bh else w
  let wh :=
    if resizehints || c.isfloating || (curlt st.mon).arrange = none then
      let baseismin : Bool := c.basew == c.minw && c.baseh == c.minh
      let w := if !baseismin then w - c.basew else w
      let h := if !baseismin then h - c.baseh else h
      let wh :=
        if c.mina > 0 ∧ c.maxa > 0 then
          if c.maxa < (w : ℚ) / (h : ℚ) then (cTrunc ((h : ℚ) * c.maxa + 1/2), h)
          else if c.mina < (h : ℚ) / (w : ℚ) then (w, cTrunc ((w : ℚ) * c.mina + 1/2))
          else (w, h)
        else (w, h)
      let w := wh.1
      let h := wh.2
      let w := if baseismin then w - c.basew else w
      let h := if baseismin then h - c.baseh else h
      let w := if c.incw ≠ 0 then w - Int.tmod w c.incw else w
      let h := if c.inch ≠ 0 then h - Int.tmod h c.inch else h
      let w := max (w + c.basew) c.minw
      let h := max (h + c.baseh) c.minh
      let w := if c.maxw ≠ 0 then min w c.maxw else w
      let h := if c.maxh ≠ 0 then min h c.maxh else h
      (w, h)
    else (w, h)
  let w := wh.1
  let h := wh.2
  ⟨x != c.x_pos || y != c.y_pos || w != c.width || h != c.height, x, y, w, h⟩

/-! ### `resizeclient` (dwm.c lines 1348-1387) and `resize` (lines 1341-1346)

`gapoffset` and `gapincr` are `unsigned int`; the monocle/single-client
branch stores `-2 * borderpx` in `gapincr`, so the later `width - gapincr`
wraps around modulo `2^32` and effectively adds `2 * borderpx`.  The wrap is
embedded exactly via `u32`/`toInt32`. -/
structure GapP where
  gapoffset : Int
  gapincr : Int
  border : Int

def resizeclient (st : GState) (cid : Nat) (x y w h : Int) : GState :=
  match lookupC st.cmap cid with
  | none => st
  | some c =>
    let n := tiledCount st
    let arr := (curlt st.mon).arrange
    -- gapoffset, gapincr and the border_width of the XConfigureWindow request
    let gp : GapP :=
      if c.isfloating || arr = none then ⟨0, 0, c.bw⟩
      else if arr = some AFn.monocleF || n == 1 then ⟨0, u32 (-2 * borderpx), 0⟩
      else ⟨u32 window_gap, u32 (2 * window_gap), c.bw⟩
    let c' := { c with
      oldx := c.x_pos, x_pos := toInt32 (x + gp.gapoffset),
      oldy := c.y_pos, y_pos := toInt32 (y + gp.gapoffset),
      oldw := c.width, width := toInt32 (w - gp.gapincr),
      oldh := c.height, height := toInt32 (h - gp.gapincr),
      wcBorder := gp.border }
    { st with cmap := updateC st.cmap cid c' }

/-- `resize`: apply size hints, commit through `resizeclient` only when the
rectangle changed. -/
def resize (st : GState) (cid : Nat) (x y w h : Int) (interact : Bool) : GState :=
  match lookupC st.cmap cid with
  | none => st
  | some c =>
    let r := applysizehints st c x y w h interact
    if r.changed then resizeclient st cid r.x r.y r.w r.h else st

/-! ### The layout arrangers (dwm.c `tile`, `monocle`, `bstack`, `bstackhoriz`)

The loop locals `i`, `my`, `ty`, `mx`, `tx` are C `unsigned int`/`int`; all
claim-relevant computations stay far inside `int` range, so they are
embedded as `Int` (divisions are C truncating divisions, `Int.tdiv`). -/

/-- Loop of `tile` (dwm.c lines 1765-1774).  `my += HEIGHT(client)` reads the
client back after `resize` committed it. -/
def tileLoop : GState → List Nat → Int → Int → Int → Int → Int → GState
  | st, [], _, _, _, _, _ => st
  | st, cid :: rest, n, mw, i, my, ty =>
    match lookupC st.cmap cid with
    | none => tileLoop st rest n mw (i + 1) my ty
    | some c =>
      if i < st.mon.nmaster then
        let h := Int.tdiv (st.mon.window_height - my) (min n st.mon.nmaster - i)
        let st' := resize st cid st.mon.window_x (st.mon.window_y + my)
          (mw - 2 * c.bw) (h - 2 * c.bw) false
        let c' := (lookupC st'.cmap cid).getD c
        tileLoop st' rest n mw (i + 1) (my + cHEIGHT c') ty
      else
        let h := Int.tdiv (st.mon.window_height - ty) (n - i)
        let st' := resize st cid (st.mon.window_x + mw) (st.mon.window_y + ty)
          (st.mon.window_width - mw - 2 * c.bw) (h - 2 * c.bw) false
        let c' := (lookupC st'.cmap cid).getD c
        tileLoop st' rest n mw (i + 1) my (ty + cHEIGHT c')

/-- `tile` (dwm.c lines 1751-1775).  `mw = window_width * mfact` truncates
the float product. -/
def tile (st : GState) : GState :=
  let ts := nexttiledList st
  let n : Int := ts.length
  if n = 0 then st
  else
    let mw : Int :=
      if n > st.mon.nmaster then
        if st.mon.nmaster ≠ 0 then cTrunc ((st.mon.window_width : ℚ) * st.mon.mfact) else 0
      else st.mon.window_width
    tileLoop st ts n mw 0 0 0

/-- Loop of `monocle` (dwm.c line 1184-1185). -/
def monocleLoop : GState → List Nat → GState
  | st, [] => st
  | st, cid :: rest =>
    match lookupC st.cmap cid with
    | none => monocleLoop st rest
    | some c =>
      monocleLoop (resize st cid st.mon.window_x st.mon.window_y
        (st.mon.window_width - 2 * c.bw) (st.mon.window_height - 2 * c.bw) false) rest

/-- `monocle` (dwm.c lines 1173-1186): counts visible clients, overrides the
layout symbol with `[n]`, resizes every tiled client to the work area. -/
def monocle (st : GState) : GState :=
  let n := (st.mon.clients.filter (fun cid =>
    match lookupC st.cmap cid with
    | some c => ISVISIBLE st.mon c
    | none => false)).length
  let st1 := if n > 0 then
      { st with mon := { st.mon with ltsymbol := "[" ++ toString n ++ "]" } }
    else st
  -- the loop iterates `nexttiled` over the same client list; the symbol
  -- update above does not affect which clients are tiled
  monocleLoop st1 (nexttiledList st)

/-- Loop of `bstack` (dwm.c lines 435-446). -/
def bstackLoop : GState → List Nat → Int → Int → Int → Int → Int → Int → Int → GState
  | st, [], _, _, _, _, _, _, _ => st
  | st, cid :: rest, n, mh, tw, i, mx, tx, ty =>
    match lookupC st.cmap cid with
    | none => bstackLoop st rest n mh tw (i + 1) mx tx ty
    | some c =>
      if i < st.mon.nmaster then
        let w := Int.tdiv (st.mon.window_width - mx) (min n st.mon.nmaster - i)
        let st' := resize st cid (st.mon.window_x + mx) st.mon.window_y
          (w - 2 * c.bw) (mh - 2 * c.bw) false
        let c' := (lookupC st'.cmap cid).getD c
        bstackLoop st' rest n mh tw (i + 1) (mx + cWIDTH c') tx ty
      else
        let h := st.mon.window_height - mh
        let st' := resize st cid tx ty (tw - 2 * c.bw) (h - 2 * c.bw) false
        let c' := (lookupC st'.cmap cid).getD c
        let tx' := if tw ≠ st.mon.window_width then tx + cWIDTH c' else tx
        bstackLoop st' rest n mh tw (i + 1) mx tx' ty

/-- `bstack` (dwm.c lines 417-447). -/
def bstack (st : GState) : GState :=
  let ts := nexttiledList st
  let n : Int := ts.length
  if n = 0 then st
  else
    let p : Int × Int × Int :=
      if n > st.mon.nmaster then
        (if st.mon.nmaster ≠ 0 then cTrunc (st.mon.mfact * (st.mon.window_height : ℚ)) else 0,
         Int.tdiv st.mon.window_width (n - st.mon.nmaster),
         st.mon.window_y +
           (if st.mon.nmaster ≠ 0 then cTrunc (st.mon.mfact * (st.mon.window_height : ℚ)) else 0))
      else (st.mon.window_height, st.mon.window_width, st.mon.window_y)
    bstackLoop st ts n p.1 p.2.1 0 0 st.mon.window_x p.2.2

/-- Loop of `bstackhoriz` (dwm.c lines 466-476). -/
def bstackhorizLoop : GState → List Nat → Int → Int → Int → Int → Int → Int → GState
  | st, [], _, _, _, _, _, _ => st
  | st, cid :: rest, n, mh, th, i, mx, ty =>
    match lookupC st.cmap cid with
    | none => bstackhorizLoop st rest n mh th (i + 1) mx ty
    | some c =>
      if i < st.mon.nmaster then
        let w := Int.tdiv (st.mon.window_width - mx) (min n st.mon.nmaster - i)
        let st' := resize st cid (st.mon.window_x + mx) st.mon.window_y
          (w - 2 * c.bw) (mh - 2 * c.bw) false
        let c' := (lookupC st'.cmap cid).getD c
        bstackhorizLoop st' rest n mh th (i + 1) (mx + cWIDTH c') ty
      else
        let st' := resize st cid st.mon.window_x ty
          (st.mon.window_width - 2 * c.bw) (th - 2 * c.bw) false
        let c' := (lookupC st'.cmap cid).getD c
        let ty' := if th ≠ st.mon.window_height then ty + cHEIGHT c' else ty
        bstackhorizLoop st' rest n mh th (i + 1) mx ty'

/-- `bstackhoriz` (dwm.c lines 449-477). -/
def bstackhoriz (st : GState) : GState :=
  let ts := nexttiledList st
  let n : Int := ts.length
  if n = 0 then st
  else
    let p : Int × Int × Int :=
      if n > st.mon.nmaster then
        let mh := if st.mon.nmaster ≠ 0 then cTrunc (st.mon.mfact * (st.mon.window_height : ℚ)) else 0
        (mh, Int.tdiv (st.mon.window_height - mh) (n - st.mon.nmaster), st.mon.window_y + mh)
      else (st.mon.window_height, st.mon.window_height, st.mon.window_y)
    bstackhorizLoop st ts n p.1 p.2.1 0 0 p.2.2

/-! ### `showhide`, `arrangemon`, `arrange` (dwm.c lines 381-401, 1690-1706)

`restack` only redraws the bar and issues X stacking requests; it changes no
model field, so `arrange(m)` is `showhide` followed by `arrangemon`.
`XMoveWindow` in `showhide` moves the X window without touching the model
geometry fields; the only model mutation of `showhide` is the `resize` call
for visible clients in floating mode. -/
def showhideGo : GState → List Nat → GState
  | st, [] => st
  | st, cid :: rest =>
    match lookupC st.cmap cid with
    | none => showhideGo st rest
    | some c =>
      if ISVISIBLE st.mon c then
        let st' :=
          if ((curlt st.mon).arrange = none || c.isfloating) && !c.isfullscreen then
            resize st cid c.x_pos c.y_pos c.width c.height false
          else st
        showhideGo st' rest
      else
        showhideGo st rest

/-- `showhide(monitor->stack)`. -/
def showhide (st : GState) : GState := showhideGo st st.mon.stack

/-- `arrangemon`: copy the layout symbol, then run the arranger if any. -/
def arrangemon (st : GState) : GState :=
  let st := { st with mon := { st.mon with ltsymbol := (curlt st.mon).symbol } }
  match (curlt st.mon).arrange with
  | none => st
  | some AFn.tileF => tile st
  | some AFn.monocleF => monocle st
  | some AFn.bstackF => bstack st
  | some AFn.bstackhorizF => bstackhoriz st

/-- `arrange(m)` for the world's monitor. -/
def arrange (st : GState) : GState := arrangemon (showhide st)

/-! ### Focus stack operations (dwm.c `attachstack`, `detachstack`, `focus`,
`clearurgent`) -/

/-- Splice of the singly linked stack list (`for (tc = &stack; *tc && *tc !=
client; ...); *tc = client->snext;`): removes the first occurrence. -/
def removeFirst : List Nat → Nat → List Nat
  | [], _ => []
  | k :: rest, cid => if k = cid then rest else k :: removeFirst rest cid

/-- `for (t = stack; t && !ISVISIBLE(t); t = t->snext)`. -/
def firstVisible (st : GState) : List Nat → Option Nat
  | [] => none
  | cid :: rest =>
    match lookupC st.cmap cid with
    | some c => if ISVISIBLE st.mon c then some cid else firstVisible st rest
    | none => firstVisible st rest

/-- `attachstack` (dwm.c lines 410-415). -/
def attachstack (st : GState) (cid : Nat) : GState :=
  { st with mon := { st.mon with stack := cid :: st.mon.stack } }

/-- `detachstack` (dwm.c lines 739-751). -/
def detachstack (st : GState) (cid : Nat) : GState :=
  let stack' := removeFirst st.mon.stack cid
  if st.mon.selected_client = some cid then
    { st with mon := { st.mon with stack := stack', selected_client := firstVisible st stack' } }
  else
    { st with mon := { st.mon with stack := stack' } }

/-- `clearurgent` (model part: `client->isurgent = 0`). -/
def clearurgent (st : GState) (cid : Nat) : GState :=
  match lookupC st.cmap cid with
  | none => st
  | some c => { st with cmap := updateC st.cmap cid { c with isurgent := false } }

/-- `focus(client|NULL)` (dwm.c lines 856-880).  `unfocus`, `grabbuttons`,
`setfocus` and `drawbars` have no model effect; the monitor-switch branch is
trivial in the single-monitor world. -/
def focus (st : GState) (oc : Option Nat) : GState :=
  let copt : Option Nat :=
    match oc with
    | some cid =>
      match lookupC st.cmap cid with
      | some c => if ISVISIBLE st.mon c then some cid else firstVisible st st.mon.stack
      | none => firstVisible st st.mon.stack
    | none => firstVisible st st.mon.stack
  match copt with
  | some cid =>
    let st :=
      match lookupC st.cmap cid with
      | some c => if c.isurgent then clearurgent st cid else st
      | none => st
    let st := attachstack (detachstack st cid) cid
    { st with mon := { st.mon with selected_client := some cid } }
  | none =>
    { st with mon := { st.mon with selected_client := none } }

/-! ### `setfullscreen` (dwm.c lines 1573-1599) -/

/-- `setfullscreen(c, fullscreen)`.  The `_NET_WM_STATE` property writes and
`XRaiseWindow` have no model effect. -/
def setfullscreen (st : GState) (cid : Nat) (fullscreen : Bool) : GState :=
  match lookupC st.cmap cid with
  | none => st
  | some c =>
    if fullscreen && !c.isfullscreen then
      let c' := { c with
        isfullscreen := true, oldstate := c.isfloating,
        oldbw := c.bw, bw := 0, isfloating := true }
      let st := { st with cmap := updateC st.cmap cid c' }
      resizeclient st cid st.mon.mon_x st.mon.mon_y st.mon.mon_width st.mon.mon_height
    else if !fullscreen && c.isfullscreen then
      let c' := { c with
        isfullscreen := false, isfloating := c.oldstate, bw := c.oldbw,
        x_pos := c.oldx, y_pos := c.oldy, width := c.oldw, height := c.oldh }
      let st := { st with cmap := updateC st.cmap cid c' }
      let st := resizeclient st cid c'.x_pos c'.y_pos c'.width c'.height
      arrange st
    else st

/-! ### `setmfact` (dwm.c lines 1615-1628) -/

/-- `setmfact(arg)` with `arg->f` embedded as a rational.  The C guard
`arg->f < 1.0` takes the relative branch strictly below `1.0`; values
outside `[0.1, 0.9]` are rejected (early return), not clamped. -/
def setmfact (st : GState) (argf : ℚ) : GState :=
  if (curlt st.mon).arrange = none then st
  else
    let f := if argf < 1 then argf + st.mon.mfact else argf - 1
    if f < 1/10 ∨ f > 9/10 then st
    else arrange { st with mon := { st.mon with mfact := f } }

/-! ### Tag and view commands (dwm.c `toggletag`, `view`, `toggleview`) -/

/-- Write `monitor->tagset[monitor->seltags]`. -/
def setTagsetCur (m : GMon) (v : Nat) : GMon :=
  if m.seltags then { m with tagset1 := v } else { m with tagset0 := v }

/-- `toggletag` (dwm.c lines 1800-1813). -/
def toggletag (st : GState) (ui : Nat) : GState :=
  match st.mon.selected_client with
  | none => st
  | some cid =>
    match lookupC st.cmap cid with
    | none => st
    | some c =>
      let newtags := c.tags ^^^ (ui &&& TAGMASK)
      if newtags ≠ 0 then
        arrange (focus { st with cmap := updateC st.cmap cid { c with tags := newtags } } none)
      else st

/-- `view` (dwm.c lines 2116-2126). -/
def view (st : GState) (ui : Nat) : GState :=
  if (ui &&& TAGMASK) = tagsetCur st.mon then st
  else
    let m := { st.mon with seltags := !st.mon.seltags }
    let m := if (ui &&& TAGMASK) ≠ 0 then setTagsetCur m (ui &&& TAGMASK) else m
    arrange (focus { st with mon := m } none)

/-- `toggleview` (dwm.c lines 1815-1825). -/
def toggleview (st : GState) (ui : Nat) : GState :=
  let newtagset := tagsetCur st.mon ^^^ (ui &&& TAGMASK)
  if newtagset ≠ 0 then
    arrange (focus { st with mon := setTagsetCur st.mon newtagset } none)
  else st

/-! ### `createmon` (dwm.c lines 703-718)

`ecalloc` zero-initialises every field; `createmon` then fills in the
configured defaults.  `lt[1] = &layouts[1 % LENGTH(layouts)] = &layouts[1]`. -/
def createmon : GMon :=
  { ltsymbol := "[]=",
    mfact := mfactC,
    nmaster := nmasterC,
    num := 0, bar_y := 0,
    mon_x := 0, mon_y := 0, mon_width := 0, mon_height := 0,
    window_x := 0, window_y := 0, window_width := 0, window_height := 0,
    seltags := false, sellt := false,
    tagset0 := 1, tagset1 := 1,
    showbar := true, topbar := true,
    clients := [], selected_client := none, stack := [],
    lt0 := layoutsC.getD 0 ⟨"", none⟩,
    lt1 := layoutsC.getD 1 ⟨"", none⟩ }

end Dwm

/-!
## Multi-monitor list structure world

This world keeps only the parts of the model that `attach`, `detach`,
`attachstack`, `detachstack`, `sendmon` and `dirtomon` read and write: the
per-monitor client list and focus stack, the client's monitor
back-reference (`c->mon`, embedded as the monitor number the pointer
refers to; `updategeom` numbers monitors uniquely), the client tag masks
and the monitors' current tagsets (needed by `ISVISIBLE` inside
`detachstack` and `focus`).
-/

namespace DwmLists

/-- The fields of `struct Monitor` relevant to the list structure. -/
structure MonL where
  num : Int
  seltags : Bool
  tagset0 : Nat
  tagset1 : Nat
  clients : List Nat
  stack : List Nat
  selected_client : Option Nat
deriving DecidableEq

/-- World state: monitor list, back-references `c->mon` and tags `c->tags`
as association lists over client ids, and the number of `selected_monitor`. -/
structure LState where
  mons : List MonL
  cmon : List (Nat × Int)
  ctags : List (Nat × Nat)
  selmon : Int
deriving DecidableEq

/-- First-match association lookup. -/
def alookup {α : Type} : List (Nat × α) → Nat → Option α
  | [], _ => none
  | (k, v) :: rest, key => if k = key then some v else alookup rest key

/-- Replace the first binding of a key (no effect when absent). -/
def aset {α : Type} : List (Nat × α) → Nat → α → List (Nat × α)
  | [], _, _ => []
  | (k, v) :: rest, key, nv => if k = key then (k, nv) :: rest else (k, v) :: aset rest key nv

/-- Find the monitor a `Monitor *` refers to, by its number. -/
def findMon : List MonL → Int → Option MonL
  | [], _ => none
  | m :: rest, n => if m.num = n then some m else findMon rest n

/-- Apply `f` to the first monitor with the given number (a pointer update). -/
def updMon : List MonL → Int → (MonL → MonL) → List MonL
  | [], _, _ => []
  | m :: rest, n, f => if m.num = n then f m :: rest else m :: updMon rest n f

/-- Splice out of a singly linked list: removes the first occurrence. -/
def removeFirst : List Nat → Nat → List Nat
  | [], _ => []
  | k :: rest, cid => if k = cid then rest else k :: removeFirst rest cid

/-- `monitor->tagset[monitor->seltags]`. -/
def tagsetCur (m : MonL) : Nat := if m.seltags then m.tagset1 else m.tagset0

/-- `ISVISIBLE(C)` on this world (a client without a tags entry cannot occur
for a managed client; it is treated as invisible). -/
def visibleIn (s : LState) (m : MonL) (cid : Nat) : Bool :=
  match alookup s.ctags cid with
  | some t => (t &&& tagsetCur m) ≠ 0
  | none => false

/-- `for (t = stack; t && !ISVISIBLE(t); t = t->snext)`. -/
def firstVisibleL (s : LState) (m : MonL) : List Nat → Option Nat
  | [] => none
  | cid :: rest => if visibleIn s m cid then some cid else firstVisibleL s m rest

/-- `attach(c)`: prepend to `c->mon->clients` (dwm.c lines 403-408). -/
def attach (s : LState) (cid : Nat) : LState :=
  match alookup s.cmon cid with
  | none => s
  | some mnum => { s with mons := updMon s.mons mnum (fun m => { m with clients := cid :: m.clients }) }

/-- `attachstack(c)`: prepend to `c->mon->stack` (dwm.c lines 410-415). -/
def attachstack (s : LState) (cid : Nat) : LState :=
  match alookup s.cmon cid with
  | none => s
  | some mnum => { s with mons := updMon s.mons mnum (fun m => { m with stack := cid :: m.stack }) }

/-- `detach(c)` (dwm.c lines 730-737): splice out of `c->mon->clients`. -/
def detach (s : LState) (cid : Nat) : LState :=
  match alookup s.cmon cid with
  | none => s
  | some mnum => { s with mons := updMon s.mons mnum (fun m => { m with clients := removeFirst m.clients cid }) }

/-- `detachstack(c)` (dwm.c lines 739-751): splice out of `c->mon->stack`;
when `c` was the selected client, select the first visible client of the
remaining stack. -/
def detachstack (s : LState) (cid : Nat) : LState :=
  match alookup s.cmon cid with
  | none => s
  | some mnum =>
    { s with mons := updMon s.mons mnum (fun m =>
        let stack' := removeFirst m.stack cid
        if m.selected_client = some cid then
          { m with stack := stack', selected_client := firstVisibleL s m stack' }
        else
          { m with stack := stack' }) }

/-- The list-structure effect of `focus(NULL)` (dwm.c lines 856-880): pick
the first visible client of the selected monitor's stack, move it to the
head of that stack (detachstack/attachstack) and make it the selected
client; with no visible client, clear the selected client. -/
def focusNull (s : LState) : LState :=
  match findMon s.mons s.selmon with
  | none => s
  | some m =>
    match firstVisibleL s m m.stack with
    | some cid =>
      let s := attachstack (detachstack s cid) cid
      { s with mons := updMon s.mons s.selmon (fun mo => { mo with selected_client := some cid }) }
    | none =>
      { s with mons := updMon s.mons s.selmon (fun mo => { mo with selected_client := none }) }

/-- `sendmon(c, m)` (dwm.c lines 1511-1525).  `unfocus` and `arrange(NULL)`
do not change the list structure; `focus(NULL)` does (MRU promotion).  A
call on an unmanaged client or towards a nonexistent monitor would
dereference an invalid pointer in C and is a guarded no-op here. -/
def sendmon (s : LState) (cid : Nat) (mnum : Int) : LState :=
  match alookup s.cmon cid, findMon s.mons mnum with
  | some cm, some target =>
    if cm = mnum then s
    else
      let s := detach s cid
      let s := detachstack s cid
      let s := { s with cmon := aset s.cmon cid mnum,
                        ctags := aset s.ctags cid (tagsetCur target) }
      let s := attach s cid
      let s := attachstack s cid
      focusNull s
  | _, _ => s

/-- `dirtomon(dir)` (dwm.c lines 753-763): walks the monitor list while a
successor exists, returning the first monitor (other than the last) whose
`num` equals `dir`, and the last monitor otherwise. -/
def dirtomon (dir : Int) : List MonL → Option MonL
  | [] => none
  | [m] => some m
  | m :: rest => if dir = m.num then some m else dirtomon dir rest

/-- The five operations named by the claim, as they appear in the source. -/
inductive RawOp where
  | attachO (cid : Nat)
  | detachO (cid : Nat)
  | attachstackO (cid : Nat)
  | detachstackO (cid : Nat)
  | sendmonO (cid : Nat) (mnum : Int)
deriving DecidableEq

/-- Apply one raw operation. -/
def applyRaw (s : LState) : RawOp → LState
  | RawOp.attachO cid => attach s cid
  | RawOp.detachO cid => detach s cid
  | RawOp.attachstackO cid => attachstack s cid
  | RawOp.detachstackO cid => detachstack s cid
  | RawOp.sendmonO cid mnum => sendmon s cid mnum

/-- Apply a sequence of raw operations, first to last. -/
def applyRawSeq (s : LState) : List RawOp → LState
  | [] => s
  | op :: rest => applyRawSeq (applyRaw s op) rest

/-- The paired operations as the code actually performs them: `manage` runs
`attach; attachstack` on a freshly allocated client whose `mon`
back-reference was just set, `unmanage` runs `detach; detachstack`, and
`sendmon` is taken whole.  The freshness of a managed client is the guard
`cid ∉ clients` of its monitor. -/
inductive PairedOp where
  | attachPairO (cid : Nat)
  | detachPairO (cid : Nat)
  | sendmonO (cid : Nat) (mnum : Int)
deriving DecidableEq

/-- Apply one paired operation.  The attach pair requires the client to be
absent from its monitor's lists (as a freshly allocated client is). -/
def applyPaired (s : LState) : PairedOp → LState
  | PairedOp.attachPairO cid =>
    match alookup s.cmon cid with
    | none => s
    | some mnum =>
      match findMon s.mons mnum with
      | none => s
      | some m => if cid ∈ m.clients ∨ cid ∈ m.stack then s else attachstack (attach s cid) cid
  | PairedOp.detachPairO cid => detachstack (detach s cid) cid
  | PairedOp.sendmonO cid mnum => sendmon s cid mnum

/-- Apply a sequence of paired operations, first to last. -/
def applyPairedSeq (s : LState) : List PairedOp → LState
  | [] => s
  | op :: rest => applyPairedSeq (applyPaired s op) rest

/-- The invariant of claim C1: monitors are distinctly numbered, and every
client of a monitor's client list appears there exactly once, exactly once
in the same monitor's focus stack, with its back-reference naming that
monitor (and conversely every stacked client is listed). -/
def Inv (s : LState) : Prop :=
  (s.mons.map MonL.num).Nodup ∧
  ∀ m ∈ s.mons,
    m.clients.Nodup ∧ m.stack.Nodup ∧
    (∀ cid ∈ m.stack, cid ∈ m.clients) ∧
    (∀ cid ∈ m.clients, cid ∈ m.stack ∧ alookup s.cmon cid = some m.num)

instance (s : LState) : Decidable (Inv s) := by
  unfold Inv
  infer_instance

/-- The per-monitor part of the invariant `Inv`. -/
def MOK (cm : List (Nat × Int)) (m : MonL) : Prop :=
  m.clients.Nodup ∧ m.stack.Nodup ∧
  (∀ cid ∈ m.stack, cid ∈ m.clients) ∧
  (∀ cid ∈ m.clients, cid ∈ m.stack ∧ alookup cm cid = some m.num)

/-- Fixture: one monitor holding one client, satisfying `Inv`. -/
def rawState : LState :=
  { mons := [{ num := 0, seltags := false, tagset0 := 1, tagset1 := 1,
               clients := [1], stack := [1], selected_client := some 1 }],
    cmon := [(1, 0)], ctags := [(1, 1)], selmon := 0 }

/-- Fixture: two monitors, client 1 on monitor 0, client 2 on monitor 1. -/
def twoMonState : LState :=
  { mons := [{ num := 0, seltags := false, tagset0 := 1, tagset1 := 1,
               clients := [1], stack := [1], selected_client := some 1 },
             { num := 1, seltags := false, tagset0 := 1, tagset1 := 1,
               clients := [2], stack := [2], selected_client := some 2 }],
    cmon := [(1, 0), (2, 1)], ctags := [(1, 1), (2, 1)], selmon := 0 }

end DwmLists

/-! ## Concrete fixtures used by witnesses and counterexamples -/

namespace Dwm

/-- A client with no size hints, border `borderpx`, tag 1, not floating —
the record a freshly managed plain window ends up with. -/
def baseClient : GClient :=
  { mina := 0, maxa := 0,
    x_pos := 0, y_pos := 0, width := 100, height := 100,
    oldx := 0, oldy := 0, oldw := 0, oldh := 0,
    basew := 0, baseh := 0, incw := 0, inch := 0,
    maxw := 0, maxh := 0, minw := 0, minh := 0,
    bw := 1, oldbw := 1,
    tags := 1,
    isfixed := false, isfloating := false, isurgent := false,
    neverfocus := false, oldstate := false, isfullscreen := false,
    wcBorder := 1 }

/-- A 1920x1080 monitor with no bar offset, the configured defaults and the
tile layout selected. -/
def tileMon : GMon :=
  { ltsymbol := "[]=", mfact := 11/20, nmaster := 1, num := 0, bar_y := 0,
    mon_x := 0, mon_y := 0, mon_width := 1920, mon_height := 1080,
    window_x := 0, window_y := 0, window_width := 1920, window_height := 1080,
    seltags := false, sellt := false, tagset0 := 1, tagset1 := 1,
    showbar := true, topbar := true,
    clients := [], selected_client := none, stack := [],
    lt0 := ⟨"[]=", some AFn.tileF⟩, lt1 := ⟨"><>", none⟩ }

/-- Base state: the monitor above, no clients, bar height 17. -/
def baseState : GState :=
  { mon := tileMon, cmap := [], sw := 1920, sh := 1080, bh := 17 }

/-- Visibility of the client stored under an id (Bool-valued `ISVISIBLE`,
with a missing id counting as invisible). -/
def visB (st : GState) (k : Nat) : Bool :=
  match lookupC st.cmap k with
  | some c => ISVISIBLE st.mon c
  | none => false

/-- Fixture: three clients on the stack, client 1 selected, client 2 on an
unviewed tag (invisible), clients 1 and 3 visible. -/
def stackState : GState :=
  { baseState with
    mon := { tileMon with clients := [1, 2, 3], stack := [1, 2, 3], selected_client := some 1 },
    cmap := [(1, baseClient), (2, { baseClient with tags := 2 }), (3, baseClient)] }

/-- The tag-view commands whose sequences claim C9 quantifies over. -/
inductive VOp where
  | viewO (ui : Nat)
  | toggleviewO (ui : Nat)
deriving DecidableEq

/-- Apply one `view`/`toggleview` command. -/
def applyV (st : GState) : VOp → GState
  | VOp.viewO ui => view st ui
  | VOp.toggleviewO ui => toggleview st ui

/-- Apply a sequence of `view`/`toggleview` commands, first to last. -/
def applyVSeq (st : GState) : List VOp → GState
  | [] => st
  | op :: rest => applyVSeq (applyV st op) rest

/-- Fixture: one visible tiled client under the monocle layout. -/
def monoState : GState :=
  { baseState with
    mon := { tileMon with
      lt0 := ⟨"[M]", some AFn.monocleF⟩, ltsymbol := "[M]",
      clients := [1], stack := [1], selected_client := some 1 },
    cmap := [(1, { baseClient with x_pos := 5, y_pos := 5, width := 300, height := 200 })] }

/-- The experiment of claim C6: apply `applysizehints` to a proposed
rectangle, update the client's geometry to the output (what `resize`
commits for a gap-free client), and apply `applysizehints` again to that
output. -/
def ashTwice (st : GState) (c : GClient) (x y w h : Int) : AshR :=
  let r1 := applysizehints st c x y w h false
  let c1 := { c with x_pos := r1.x, y_pos := r1.y, width := r1.w, height := r1.h }
  applysizehints st c1 r1.x r1.y r1.w r1.h false

/-- Fixture: a floating client whose max size (15) is not aligned to its
resize increment (10). -/
def hintClient : GClient :=
  { baseClient with
    isfloating := true, maxw := 15, maxh := 15, incw := 10, inch := 10,
    x_pos := 50, y_pos := 50, width := 100, height := 100 }

/-- Fixture state holding `hintClient`. -/
def hintState : GState :=
  { baseState with
    mon := { tileMon with clients := [1], stack := [1], selected_client := some 1 },
    cmap := [(1, hintClient)] }

/-- Fixture for the two-client tile scenario: clients 1 and 2, freshly
managed hint-free windows (border 1, tag 1) on the 1920x1080 monitor with
the tile layout, nmaster 1, mfact 0.55 and window_gap 6. -/
def tile2State : GState :=
  { mon := { tileMon with clients := [1, 2], stack := [1, 2], selected_client := some 1 },
    cmap := [(1, baseClient), (2, baseClient)], sw := 1920, sh := 1080, bh := 17 }

/-- Fixture for the fullscreen round trip: a single visible tiled client at
`(100, 100, 800, 600)` with border 1 under the tile layout. -/
def fsState : GState :=
  { mon := { tileMon with clients := [1], stack := [1], selected_client := some 1 },
    cmap := [(1, { baseClient with x_pos := 100, y_pos := 100, width := 800, height := 600 })],
    sw := 1920, sh := 1080, bh := 17 }

/-- A state whose monitor is exactly `createmon`'s result. -/
def cmState : GState := { mon := createmon, cmap := [], sw := 1920, sh := 1080, bh := 17 }

/-- A hint-free floating client sitting inside the work area. -/
def floatClient : GClient :=
  { baseClient with isfloating := true, x_pos := 50, y_pos := 50 }

/-- Fixture: one visible floating client under the tile layout. -/
def floatState : GState :=
  { baseState with
    mon := { tileMon with clients := [1], stack := [1], selected_client := some 1 },
    cmap := [(1, floatClient)] }

/-- The tags of the client stored under a given id. -/
def tagsAt (st : GState) (k : Nat) : Option Nat := (lookupC st.cmap k).map GClient.tags

/-- Both stored tagsets of a monitor are non-zero. -/
def Inv9 (m : GMon) : Prop := m.tagset0 ≠ 0 ∧ m.tagset1 ≠ 0

instance (m : GMon) : Decidable (Inv9 m) := by
  unfold Inv9
  infer_instance

end Dwm

/-! ## Basic lemmas about the client store and state shapes -/

namespace Dwm

theorem lookupC_updateC_self {l : List (Nat × GClient)} {k : Nat} {c0 : GClient} (c : GClient)
    (h : lookupC l k = some c0) : lookupC (updateC l k c) k = some c := by
  induction l with
  | nil => simp [lookupC] at h
  | cons hd tl ih =>
    obtain ⟨k', v⟩ := hd
    by_cases hk : k' = k
    · subst hk
      simp [lookupC, updateC]
    · simp only [lookupC, updateC, if_neg hk] at h ⊢
      exact ih h

theorem lookupC_updateC_ne {l : List (Nat × GClient)} {k k' : Nat} (c : GClient)
    (h : k' ≠ k) : lookupC (updateC l k c) k' = lookupC l k' := by
  induction l with
  | nil => rfl
  | cons hd tl ih =>
    obtain ⟨k0, v⟩ := hd
    by_cases hk : k0 = k
    · subst hk
      have hk' : k0 ≠ k' := fun hh => h hh.symm
      simp [updateC, lookupC, hk']
    · by_cases hk2 : k0 = k'
      · simp [updateC, lookupC, hk, hk2, h]
      · simp [updateC, lookupC, hk, hk2, ih]

theorem lookupC_updateC_none {l : List (Nat × GClient)} {k : Nat} (c : GClient)
    (h : lookupC l k = none) : updateC l k c = l := by
  induction l with
  | nil => rfl
  | cons hd tl ih =>
    obtain ⟨k0, v⟩ := hd
    by_cases hk : k0 = k
    · simp [lookupC, if_pos hk] at h
    · simp only [lookupC, if_neg hk] at h
      simp [updateC, if_neg hk, ih h]

/-- `resizeclient` only rewrites the client store. -/
theorem resizeclient_shape (st : GState) (cid : Nat) (x y w h : Int) :
    resizeclient st cid x y w h = { st with cmap := (resizeclient st cid x y w h).cmap } := by
  unfold resizeclient
  cases hc : lookupC st.cmap cid <;> simp

/-- `resize` only rewrites the client store. -/
theorem resize_shape (st : GState) (cid : Nat) (x y w h : Int) (ia : Bool) :
    resize st cid x y w h ia = { st with cmap := (resize st cid x y w h ia).cmap } := by
  unfold resize
  cases hc : lookupC st.cmap cid
  · simp
  · simp only
    split
    · exact resizeclient_shape ..
    · simp

theorem tileLoop_shape (l : List Nat) (st : GState) (n mw i my ty : Int) :
    tileLoop st l n mw i my ty = { st with cmap := (tileLoop st l n mw i my ty).cmap } := by
  induction l generalizing st i my ty with
  | nil => simp [tileLoop]
  | cons cid rest ih =>
    rw [tileLoop]
    cases hc : lookupC st.cmap cid
    · exact ih ..
    · simp only
      split
      · rw [ih, show (resize st cid st.mon.window_x (st.mon.window_y + my)
          (mw - 2 * _) _ false) = _ from resize_shape ..]
      · rw [ih, show (resize st cid (st.mon.window_x + mw) (st.mon.window_y + ty)
          (st.mon.window_width - mw - 2 * _) _ false) = _ from resize_shape ..]

theorem monocleLoop_shape (l : List Nat) (st : GState) :
    monocleLoop st l = { st with cmap := (monocleLoop st l).cmap } := by
  induction l generalizing st with
  | nil => simp [monocleLoop]
  | cons cid rest ih =>
    rw [monocleLoop]
    cases hc : lookupC st.cmap cid
    · exact ih _
    · simp only
      rw [ih, show (resize st cid st.mon.window_x st.mon.window_y
        (st.mon.window_width - 2 * _) (st.mon.window_height - 2 * _) false) = _ from resize_shape ..]

theorem bstackLoop_shape (l : List Nat) (st : GState) (n mh tw i mx tx ty : Int) :
    bstackLoop st l n mh tw i mx tx ty
      = { st with cmap := (bstackLoop st l n mh tw i mx tx ty).cmap } := by
  induction l generalizing st i mx tx ty with
  | nil => simp [bstackLoop]
  | cons cid rest ih =>
    rw [bstackLoop]
    cases hc : lookupC st.cmap cid
    · exact ih ..
    · simp only
      split
      · rw [ih, show (resize st cid (st.mon.window_x + mx) st.mon.window_y _ _ false) = _
          from resize_shape ..]
      · rw [ih, show (resize st cid tx ty _ _ false) = _ from resize_shape ..]

theorem bstackhorizLoop_shape (l : List Nat) (st : GState) (n mh th i mx ty : Int) :
    bstackhorizLoop st l n mh th i mx ty
      = { st with cmap := (bstackhorizLoop st l n mh th i mx ty).cmap } := by
  induction l generalizing st i mx ty with
  | nil => simp [bstackhorizLoop]
  | cons cid rest ih =>
    rw [bstackhorizLoop]
    cases hc : lookupC st.cmap cid
    · exact ih ..
    · simp only
      split
      · rw [ih, show (resize st cid (st.mon.window_x + mx) st.mon.window_y _ _ false) = _
          from resize_shape ..]
      · rw [ih, show (resize st cid st.mon.window_x ty _ _ false) = _ from resize_shape ..]

theorem showhideGo_shape (l : List Nat) (st : GState) :
    showhideGo st l = { st with cmap := (showhideGo st l).cmap } := by
  induction l generalizing st with
  | nil => simp [showhideGo]
  | cons cid rest ih =>
    rw [showhideGo]
    cases hc : lookupC st.cmap cid
    · exact ih _
    · simp only
      split
      · split
        · rw [ih, show (resize st cid _ _ _ _ false) = _ from resize_shape ..]
        · exact ih _
      · exact ih _

theorem tile_shape (st : GState) : ∃ cm, tile st = { st with cmap := cm } := by
  rw [tile]
  split
  · exact ⟨st.cmap, rfl⟩
  · exact ⟨_, tileLoop_shape ..⟩

theorem bstack_shape (st : GState) : ∃ cm, bstack st = { st with cmap := cm } := by
  rw [bstack]
  split
  · exact ⟨st.cmap, rfl⟩
  · exact ⟨_, bstackLoop_shape ..⟩

theorem bstackhoriz_shape (st : GState) : ∃ cm, bstackhoriz st = { st with cmap := cm } := by
  rw [bstackhoriz]
  split
  · exact ⟨st.cmap, rfl⟩
  · exact ⟨_, bstackhorizLoop_shape ..⟩

theorem showhide_shape (st : GState) : ∃ cm, showhide st = { st with cmap := cm } :=
  ⟨_, showhideGo_shape ..⟩

/-- `curlt` does not read the layout symbol. -/
theorem curlt_ltsymbol (m : GMon) (s : String) :
    curlt { m with ltsymbol := s } = curlt m := rfl

theorem monocle_shape (st : GState) :
    ∃ cm sym, monocle st = { st with cmap := cm, mon := { st.mon with ltsymbol := sym } } := by
  rw [monocle]
  split
  · exact ⟨_, _, monocleLoop_shape ..⟩
  · exact ⟨_, st.mon.ltsymbol, monocleLoop_shape ..⟩

theorem arrangemon_shape (st : GState) :
    ∃ cm sym, arrangemon st = { st with cmap := cm, mon := { st.mon with ltsymbol := sym } } := by
  rw [arrangemon]
  rw [show curlt { st.mon with ltsymbol := (curlt st.mon).symbol } = curlt st.mon from rfl]
  cases harr : (curlt st.mon).arrange with
  | none => exact ⟨st.cmap, _, rfl⟩
  | some f =>
    cases f
    · obtain ⟨cm, h⟩ := tile_shape { st with mon := { st.mon with ltsymbol := (curlt st.mon).symbol } }
      exact ⟨cm, _, h⟩
    · obtain ⟨cm, sym, h⟩ :=
        monocle_shape { st with mon := { st.mon with ltsymbol := (curlt st.mon).symbol } }
      exact ⟨cm, sym, h⟩
    · obtain ⟨cm, h⟩ :=
        bstack_shape { st with mon := { st.mon with ltsymbol := (curlt st.mon).symbol } }
      exact ⟨cm, _, h⟩
    · obtain ⟨cm, h⟩ :=
        bstackhoriz_shape { st with mon := { st.mon with ltsymbol := (curlt st.mon).symbol } }
      exact ⟨cm, _, h⟩

theorem arrange_shape (st : GState) :
    ∃ cm sym, arrange st = { st with cmap := cm, mon := { st.mon with ltsymbol := sym } } := by
  rw [arrange]
  obtain ⟨cm0, h0⟩ := showhide_shape st
  rw [h0]
  obtain ⟨cm, sym, h⟩ := arrangemon_shape { st with cmap := cm0 }
  exact ⟨cm, sym, h⟩

theorem clearurgent_shape (st : GState) (cid : Nat) :
    ∃ cm, clearurgent st cid = { st with cmap := cm } := by
  rw [clearurgent]
  cases hc : lookupC st.cmap cid
  · exact ⟨st.cmap, rfl⟩
  · exact ⟨_, rfl⟩

theorem detachstack_shape (st : GState) (cid : Nat) :
    ∃ stck sel, detachstack st cid
      = { st with mon := { st.mon with stack := stck, selected_client := sel } } := by
  rw [detachstack]
  split
  · exact ⟨_, _, rfl⟩
  · exact ⟨_, st.mon.selected_client, rfl⟩

theorem attachstack_shape (st : GState) (cid : Nat) :
    attachstack st cid = { st with mon := { st.mon with stack := cid :: st.mon.stack } } := rfl

theorem focus_shape (st : GState) (oc : Option Nat) :
    ∃ cm stck sel, focus st oc
      = { st with cmap := cm, mon := { st.mon with stack := stck, selected_client := sel } } := by
  rw [focus.eq_def]
  generalize (match oc with
    | some cid =>
      match lookupC st.cmap cid with
      | some c => if ISVISIBLE st.mon c then some cid else firstVisible st st.mon.stack
      | none => firstVisible st st.mon.stack
    | none => firstVisible st st.mon.stack) = copt
  cases copt with
  | none => exact ⟨st.cmap, st.mon.stack, none, rfl⟩
  | some cid =>
    simp only
    have h1 : ∃ cm, (match lookupC st.cmap cid with
        | some c => if c.isurgent then clearurgent st cid else st
        | none => st) = { st with cmap := cm } := by
      cases hc : lookupC st.cmap cid
      · exact ⟨st.cmap, rfl⟩
      · simp only
        split
        · exact clearurgent_shape st cid
        · exact ⟨st.cmap, rfl⟩
    obtain ⟨cm, h1⟩ := h1
    rw [h1]
    obtain ⟨stck, sel, h2⟩ := detachstack_shape { st with cmap := cm } cid
    rw [h2, attachstack_shape]
    exact ⟨cm, _, _, rfl⟩

/-! ### Tag preservation: layout passes and focusing never change `c->tags` -/

theorem resizeclient_tagsAt (st : GState) (cid : Nat) (x y w h : Int) (k : Nat) :
    tagsAt (resizeclient st cid x y w h) k = tagsAt st k := by
  rw [resizeclient]
  cases hc : lookupC st.cmap cid
  · rfl
  · simp only [tagsAt]
    by_cases hk : k = cid
    · subst hk
      rw [lookupC_updateC_self _ hc, hc]
      rfl
    · rw [lookupC_updateC_ne _ hk]

theorem resize_tagsAt (st : GState) (cid : Nat) (x y w h : Int) (ia : Bool) (k : Nat) :
    tagsAt (resize st cid x y w h ia) k = tagsAt st k := by
  rw [resize]
  cases hc : lookupC st.cmap cid
  · rfl
  · simp only
    split
    · exact resizeclient_tagsAt ..
    · rfl

theorem tileLoop_tagsAt (l : List Nat) (st : GState) (n mw i my ty : Int) (k : Nat) :
    tagsAt (tileLoop st l n mw i my ty) k = tagsAt st k := by
  induction l generalizing st i my ty with
  | nil => rfl
  | cons cid rest ih =>
    rw [tileLoop]
    cases hc : lookupC st.cmap cid
    · exact ih ..
    · simp only
      split
      · rw [ih, resize_tagsAt]
      · rw [ih, resize_tagsAt]

theorem monocleLoop_tagsAt (l : List Nat) (st : GState) (k : Nat) :
    tagsAt (monocleLoop st l) k = tagsAt st k := by
  induction l generalizing st with
  | nil => rfl
  | cons cid rest ih =>
    rw [monocleLoop]
    cases hc : lookupC st.cmap cid
    · exact ih _
    · simp only
      rw [ih, resize_tagsAt]

theorem bstackLoop_tagsAt (l : List Nat) (st : GState) (n mh tw i mx tx ty : Int) (k : Nat) :
    tagsAt (bstackLoop st l n mh tw i mx tx ty) k = tagsAt st k := by
  induction l generalizing st i mx tx ty with
  | nil => rfl
  | cons cid rest ih =>
    rw [bstackLoop]
    cases hc : lookupC st.cmap cid
    · exact ih ..
    · simp only
      split
      · rw [ih, resize_tagsAt]
      · rw [ih, resize_tagsAt]

theorem bstackhorizLoop_tagsAt (l : List Nat) (st : GState) (n mh th i mx ty : Int) (k : Nat) :
    tagsAt (bstackhorizLoop st l n mh th i mx ty) k = tagsAt st k := by
  induction l generalizing st i mx ty with
  | nil => rfl
  | cons cid rest ih =>
    rw [bstackhorizLoop]
    cases hc : lookupC st.cmap cid
    · exact ih ..
    · simp only
      split
      · rw [ih, resize_tagsAt]
      · rw [ih, resize_tagsAt]

theorem showhideGo_tagsAt (l : List Nat) (st : GState) (k : Nat) :
    tagsAt (showhideGo st l) k = tagsAt st k := by
  induction l generalizing st with
  | nil => rfl
  | cons cid rest ih =>
    rw [showhideGo]
    cases hc : lookupC st.cmap cid
    · exact ih _
    · simp only
      split
      · split
        · rw [ih, resize_tagsAt]
        · exact ih _
      · exact ih _

theorem tagsAt_mon_update (st : GState) (m : GMon) (k : Nat) :
    tagsAt { st with mon := m } k = tagsAt st k := rfl

theorem tile_tagsAt (st : GState) (k : Nat) : tagsAt (tile st) k = tagsAt st k := by
  rw [tile]
  split
  · rfl
  · exact tileLoop_tagsAt ..

theorem monocle_tagsAt (st : GState) (k : Nat) : tagsAt (monocle st) k = tagsAt st k := by
  rw [monocle]
  split
  · rw [monocleLoop_tagsAt]
    rfl
  · rw [monocleLoop_tagsAt]

theorem bstack_tagsAt (st : GState) (k : Nat) : tagsAt (bstack st) k = tagsAt st k := by
  rw [bstack]
  split
  · rfl
  · exact bstackLoop_tagsAt ..

theorem bstackhoriz_tagsAt (st : GState) (k : Nat) :
    tagsAt (bstackhoriz st) k = tagsAt st k := by
  rw [bstackhoriz]
  split
  · rfl
  · exact bstackhorizLoop_tagsAt ..

theorem arrangemon_tagsAt (st : GState) (k : Nat) :
    tagsAt (arrangemon st) k = tagsAt st k := by
  rw [arrangemon]
  cases harr : (curlt { st.mon with ltsymbol := (curlt st.mon).symbol }).arrange with
  | none => rfl
  | some f =>
    cases f
    · exact tile_tagsAt ..
    · exact monocle_tagsAt ..
    · exact bstack_tagsAt ..
    · exact bstackhoriz_tagsAt ..

theorem arrange_tagsAt (st : GState) (k : Nat) : tagsAt (arrange st) k = tagsAt st k := by
  rw [arrange, arrangemon_tagsAt, showhide]
  exact showhideGo_tagsAt ..

theorem clearurgent_tagsAt (st : GState) (cid k : Nat) :
    tagsAt (clearurgent st cid) k = tagsAt st k := by
  rw [clearurgent]
  cases hc : lookupC st.cmap cid
  · rfl
  · simp only [tagsAt]
    by_cases hk : k = cid
    · subst hk
      rw [lookupC_updateC_self _ hc, hc]
      rfl
    · rw [lookupC_updateC_ne _ hk]

theorem focus_tagsAt (st : GState) (oc : Option Nat) (k : Nat) :
    tagsAt (focus st oc) k = tagsAt st k := by
  rw [focus.eq_def]
  generalize (match oc with
    | some cid =>
      match lookupC st.cmap cid with
      | some c => if ISVISIBLE st.mon c then some cid else firstVisible st st.mon.stack
      | none => firstVisible st st.mon.stack
    | none => firstVisible st st.mon.stack) = copt
  cases copt with
  | none => rfl
  | some cid =>
    simp only
    have h1 : tagsAt (match lookupC st.cmap cid with
        | some c => if c.isurgent then clearurgent st cid else st
        | none => st) k = tagsAt st k := by
      cases hc : lookupC st.cmap cid
      · rfl
      · simp only
        split
        · exact clearurgent_tagsAt ..
        · rfl
    generalize hmid : (match lookupC st.cmap cid with
        | some c => if c.isurgent then clearurgent st cid else st
        | none => st) = mid at h1
    obtain ⟨stck, sel, h2⟩ := detachstack_shape mid cid
    rw [h2, attachstack_shape]
    exact h1

end Dwm

/-! ## Claim C10: `dirtomon` semantics -/

namespace DwmLists

theorem dirtomon_finds (i : Int) (mons : List MonL) (hm : ∃ m ∈ mons, m.num = i) :
    ∃ m, dirtomon i mons = some m ∧ m.num = i := by
  induction mons with
  | nil => simp at hm
  | cons a rest ih =>
    cases rest with
    | nil =>
      obtain ⟨m, hmem, hnum⟩ := hm
      simp only [List.mem_singleton] at hmem
      subst hmem
      exact ⟨m, rfl, hnum⟩
    | cons b rest2 =>
      by_cases hi : i = a.num
      · exact ⟨a, by simp [dirtomon, hi], hi.symm⟩
      · obtain ⟨m, hmem, hnum⟩ := hm
        rcases List.mem_cons.mp hmem with h1 | h2
        · subst h1
          exact absurd hnum.symm hi
        · obtain ⟨m', hd, hn⟩ := ih ⟨m, h2, hnum⟩
          exact ⟨m', by simp [dirtomon, hi, hd], hn⟩

theorem dirtomon_default (i : Int) (mons : List MonL) (hm : ∀ m ∈ mons, m.num ≠ i) :
    dirtomon i mons = mons.getLast? := by
  induction mons with
  | nil => rfl
  | cons a rest ih =>
    cases rest with
    | nil => rfl
    | cons b rest2 =>
      have ha : i ≠ a.num := fun h => hm a (List.mem_cons_self ..) h.symm
      have := ih (fun m hmem => hm m (List.mem_cons_of_mem _ hmem))
      simp only [dirtomon, if_neg ha, this, List.getLast?_cons_cons]

end DwmLists

namespace DwmLists

/-- Claim C10: for every non-empty monitor list and every integer `i`,
`dirtomon(i)` returns the monitor whose number `num` equals `i` when such a
monitor exists, and otherwise returns the last monitor in the list; the
argument is used as a monitor number, never as a relative direction. -/
theorem C10_dirtomon_numeric (mons : List MonL) (i : Int) (hne : mons ≠ []) :
    ((∃ m ∈ mons, m.num = i) → ∃ m, dirtomon i mons = some m ∧ m.num = i) ∧
    ((∀ m ∈ mons, m.num ≠ i) → dirtomon i mons = some (mons.getLast hne)) := by
  refine ⟨dirtomon_finds i mons, fun h => ?_⟩
  rw [dirtomon_default i mons h, List.getLast?_eq_getLast _ hne]

/-- Witness for C10 on a concrete two-monitor list: monitor number `1` is
found, and a number matching no monitor yields the last monitor. -/
theorem C10_dirtomon_numeric_witness :
    (∃ m, dirtomon 1 [(⟨0, false, 1, 1, [], [], none⟩ : MonL), ⟨1, false, 1, 1, [], [], none⟩]
        = some m ∧ m.num = 1) ∧
    dirtomon 7 [(⟨0, false, 1, 1, [], [], none⟩ : MonL), ⟨1, false, 1, 1, [], [], none⟩]
        = some ⟨1, false, 1, 1, [], [], none⟩ := by
  constructor
  · exact (C10_dirtomon_numeric _ 1 (by decide)).1
      ⟨⟨1, false, 1, 1, [], [], none⟩, by decide, rfl⟩
  · exact (C10_dirtomon_numeric
      [(⟨0, false, 1, 1, [], [], none⟩ : MonL), ⟨1, false, 1, 1, [], [], none⟩] 7
      (by decide)).2 (by decide)

end DwmLists

/-! ## Claim C5: `setmfact` -/

namespace Dwm

/-- Claim C5 counterexample: with `mfact = 0.55` under the tile layout,
`set_mfact(0.5)` computes `1.05`, which the code rejects (early return)
instead of clamping to the interval; the claim predicts `mfact = 0.9`, but
`mfact` stays `0.55`. -/
theorem C5_setmfact_counterexample :
    (setmfact baseState (1/2)).mon.mfact = 11/20 ∧ (11/20 : ℚ) ≠ 9/10 := by
  constructor
  · norm_num [setmfact, baseState, tileMon, curlt]
  · norm_num

/-- Claim C5 (amended): on a monitor whose active layout has a non-null
arranger, `set_mfact(df)` computes `f = mfact + df` when `df < 1.0` and
`f = df - 1.0` otherwise; the new value is installed only when `f` lies
within `[0.1, 0.9]`, and the call leaves `mfact` unchanged otherwise (no
clamping takes place). -/
theorem C5_setmfact_amended (st : GState) (argf : ℚ)
    (harr : (curlt st.mon).arrange ≠ none) :
    (setmfact st argf).mon.mfact =
      if 1/10 ≤ (if argf < 1 then argf + st.mon.mfact else argf - 1) ∧
          (if argf < 1 then argf + st.mon.mfact else argf - 1) ≤ 9/10 then
        (if argf < 1 then argf + st.mon.mfact else argf - 1)
      else st.mon.mfact := by
  have key : ∀ f : ℚ,
      (if f < 1/10 ∨ f > 9/10 then st
       else arrange { st with mon := { st.mon with mfact := f } }).mon.mfact
        = if 1/10 ≤ f ∧ f ≤ 9/10 then f else st.mon.mfact := by
    intro f
    by_cases hr : f < 1/10 ∨ f > 9/10
    · have hno : ¬(1/10 ≤ f ∧ f ≤ 9/10) := by
        rcases hr with h | h
        · exact fun hc => absurd hc.1 (not_le.mpr h)
        · exact fun hc => absurd hc.2 (not_le.mpr h)
      rw [if_pos hr, if_neg hno]
    · rw [if_neg hr]
      push_neg at hr
      rw [if_pos hr]
      obtain ⟨cm, sym, hA⟩ := arrange_shape { st with mon := { st.mon with mfact := f } }
      rw [hA]
  rw [setmfact, if_neg harr]
  exact key _

end Dwm

namespace Dwm

/-- Witness for the amended C5: `set_mfact(-0.05)` moves `mfact` from `0.55`
to `0.5`. -/
theorem C5_setmfact_amended_witness : (setmfact baseState (-1/20)).mon.mfact = 1/2 := by
  have h := C5_setmfact_amended baseState (-1/20) (by decide)
  rw [h]
  norm_num [baseState, tileMon]

end Dwm

/-! ## Claim C7: `detachstack` -/

namespace Dwm

theorem mem_removeFirst {l : List Nat} (hnd : l.Nodup) (cid k : Nat) :
    k ∈ removeFirst l cid ↔ (k ∈ l ∧ k ≠ cid) := by
  induction l with
  | nil => simp [removeFirst]
  | cons a rest ih =>
    rw [List.nodup_cons] at hnd
    by_cases ha : a = cid
    · subst ha
      simp only [removeFirst, if_pos rfl, List.mem_cons]
      constructor
      · intro hk
        exact ⟨Or.inr hk, fun he => hnd.1 (he ▸ hk)⟩
      · rintro ⟨h1 | h1, h2⟩
        · exact absurd h1 h2
        · exact h1
    · simp only [removeFirst, if_neg ha, List.mem_cons, ih hnd.2]
      constructor
      · rintro (h | ⟨h1, h2⟩)
        · subst h
          exact ⟨Or.inl rfl, ha⟩
        · exact ⟨Or.inr h1, h2⟩
      · rintro ⟨h1 | h1, h2⟩
        · exact Or.inl h1
        · exact Or.inr ⟨h1, h2⟩

theorem firstVisible_eq_find (st : GState) (l : List Nat) :
    firstVisible st l = l.find? (visB st) := by
  induction l with
  | nil => rfl
  | cons a rest ih =>
    rw [firstVisible]
    cases hc : lookupC st.cmap a with
    | none =>
      simp only
      rw [List.find?_cons_of_neg _ (by simp [visB, hc]), ih]
    | some c =>
      simp only
      by_cases hv : ISVISIBLE st.mon c
      · rw [if_pos hv, List.find?_cons_of_pos _ (by simp [visB, hc, hv])]
      · rw [if_neg hv, List.find?_cons_of_neg _ (by simp [visB, hc, hv]), ih]

/-- Claim C7: when `c` is the selected client of its monitor, `detach_stack(c)`
removes `c` from the focus stack and selects the first visible client of the
remaining stack (`null` when none is visible); when `c` is not the selected
client, the selected client is unchanged.  The stack is assumed duplicate
free, as the structural invariant guarantees. -/
theorem C7_detachstack_selected (st : GState) (cid : Nat) (hnd : st.mon.stack.Nodup) :
    (∀ k, k ∈ (detachstack st cid).mon.stack ↔ (k ∈ st.mon.stack ∧ k ≠ cid)) ∧
    (st.mon.selected_client = some cid →
      (detachstack st cid).mon.selected_client
        = ((detachstack st cid).mon.stack).find? (visB st)) ∧
    (st.mon.selected_client ≠ some cid →
      (detachstack st cid).mon.selected_client = st.mon.selected_client) := by
  refine ⟨?_, ?_, ?_⟩
  · intro k
    rw [detachstack]
    split
    · exact mem_removeFirst hnd cid k
    · exact mem_removeFirst hnd cid k
  · intro hsel
    rw [detachstack, if_pos hsel]
    exact firstVisible_eq_find ..
  · intro hsel
    rw [detachstack, if_neg hsel]

/-- Witness for C7 at a concrete state: removing selected client 1 from the
stack `[1, 2, 3]` (client 2 invisible) selects client 3. -/
theorem C7_detachstack_selected_witness :
    (detachstack stackState 1).mon.selected_client
        = ((detachstack stackState 1).mon.stack).find? (visB stackState)
      ∧ (detachstack stackState 1).mon.selected_client = some 3 :=
  ⟨(C7_detachstack_selected stackState 1 (by decide)).2.1 (by decide), by decide⟩

end Dwm

/-! ## Claim C8: `toggletag` -/

namespace Dwm

/-- Claim C8: with a selected client present, `toggle_tag(mask)` XORs the
client's tags with `mask & TAGMASK`; the new value is installed only when it
is non-zero, otherwise the tags are left unchanged — so a selected client
with a non-zero tag mask never ends up with zero tags. -/
theorem C8_toggletag (st : GState) (ui : Nat) (cid : Nat) (c : GClient)
    (hsel : st.mon.selected_client = some cid)
    (hc : lookupC st.cmap cid = some c) :
    (c.tags ^^^ (ui &&& TAGMASK) ≠ 0 →
      tagsAt (toggletag st ui) cid = some (c.tags ^^^ (ui &&& TAGMASK))) ∧
    (c.tags ^^^ (ui &&& TAGMASK) = 0 → tagsAt (toggletag st ui) cid = some c.tags) ∧
    (c.tags ≠ 0 → ∃ t, tagsAt (toggletag st ui) cid = some t ∧ t ≠ 0) := by
  have hmain : ∀ hz : c.tags ^^^ (ui &&& TAGMASK) ≠ 0,
      tagsAt (toggletag st ui) cid = some (c.tags ^^^ (ui &&& TAGMASK)) := by
    intro hz
    rw [toggletag.eq_def, hsel]
    simp only
    rw [hc]
    simp only
    rw [if_pos hz, arrange_tagsAt, focus_tagsAt]
    simp only [tagsAt]
    rw [lookupC_updateC_self _ hc]
    rfl
  have hmain0 : c.tags ^^^ (ui &&& TAGMASK) = 0 →
      tagsAt (toggletag st ui) cid = some c.tags := by
    intro hz
    rw [toggletag.eq_def, hsel]
    simp only
    rw [hc]
    simp only
    rw [if_neg (by simp [hz])]
    simp only [tagsAt, hc, Option.map]
  refine ⟨hmain, hmain0, fun hnz => ?_⟩
  by_cases hz : c.tags ^^^ (ui &&& TAGMASK) ≠ 0
  · exact ⟨_, hmain hz, hz⟩
  · rw [not_not] at hz
    exact ⟨c.tags, hmain0 hz, hnz⟩

/-- Witness for C8: toggling tag 2 onto a client with tags 1 yields tags 3;
toggling tag 1 off the same client would zero the mask and is refused. -/
theorem C8_toggletag_witness :
    tagsAt (toggletag stackState 2) 1 = some 3 ∧ tagsAt (toggletag stackState 1) 1 = some 1 := by
  constructor
  · exact (C8_toggletag stackState 2 1 baseClient (by decide) (by decide)).1 (by decide)
  · exact (C8_toggletag stackState 1 1 baseClient (by decide) (by decide)).2.1 (by decide)

end Dwm

/-! ## Claim C9: the selected tagset is always non-zero -/

namespace Dwm

theorem arrange_focus_tagsets (st : GState) (oc : Option Nat) :
    (arrange (focus st oc)).mon.tagset0 = st.mon.tagset0 ∧
    (arrange (focus st oc)).mon.tagset1 = st.mon.tagset1 ∧
    (arrange (focus st oc)).mon.seltags = st.mon.seltags := by
  obtain ⟨cm, stck, sel, hf⟩ := focus_shape st oc
  obtain ⟨cm2, sym, ha⟩ := arrange_shape (focus st oc)
  rw [ha, hf]
  exact ⟨rfl, rfl, rfl⟩

theorem view_Inv9 (st : GState) (ui : Nat) (h : Inv9 st.mon) : Inv9 (view st ui).mon := by
  have key : ∀ m2 : GMon, Inv9 m2 → Inv9 (arrange (focus { st with mon := m2 } none)).mon := by
    intro m2 h2
    obtain ⟨h0, h1, _⟩ := arrange_focus_tagsets { st with mon := m2 } none
    exact ⟨h0 ▸ h2.1, h1 ▸ h2.2⟩
  by_cases hg : (ui &&& TAGMASK) = tagsetCur st.mon
  · rw [view, if_pos hg]
    exact h
  · rw [view, if_neg hg]
    apply key
    by_cases hm : (ui &&& TAGMASK) ≠ 0
    · rw [if_pos hm]
      cases hst : st.mon.seltags <;>
        simp [Inv9, setTagsetCur, hst, h.1, h.2, hm]
    · rw [if_neg hm]
      exact ⟨h.1, h.2⟩

theorem toggleview_Inv9 (st : GState) (ui : Nat) (h : Inv9 st.mon) :
    Inv9 (toggleview st ui).mon := by
  have key : ∀ m2 : GMon, Inv9 m2 → Inv9 (arrange (focus { st with mon := m2 } none)).mon := by
    intro m2 h2
    obtain ⟨h0, h1, _⟩ := arrange_focus_tagsets { st with mon := m2 } none
    exact ⟨h0 ▸ h2.1, h1 ▸ h2.2⟩
  by_cases hz : tagsetCur st.mon ^^^ (ui &&& TAGMASK) ≠ 0
  · rw [toggleview, if_pos hz]
    apply key
    cases hst : st.mon.seltags <;>
      simp [Inv9, setTagsetCur, hst, h.1, h.2, hz]
  · rw [toggleview, if_neg hz]
    exact h

/-- Claim C9: `createmon` initialises both tagsets to 1, and any sequence of
`view`/`toggleview` commands keeps both stored tagsets non-zero — `view`
only installs a non-null mask (otherwise it just flips `seltags` to the
other stored tagset) and `toggleview` refuses an XOR that would produce
zero.  Hence the selected tagset `tagset[seltags]` is always non-zero. -/
theorem C9_tagset_nonzero (ops : List VOp) (st : GState) (h : Inv9 st.mon) :
    Inv9 createmon ∧ Inv9 (applyVSeq st ops).mon ∧ tagsetCur (applyVSeq st ops).mon ≠ 0 := by
  refine ⟨⟨one_ne_zero, one_ne_zero⟩, ?_⟩
  have hseq : Inv9 (applyVSeq st ops).mon := by
    induction ops generalizing st with
    | nil => exact h
    | cons op rest ih =>
      cases op with
      | viewO ui => exact ih _ (view_Inv9 st ui h)
      | toggleviewO ui => exact ih _ (toggleview_Inv9 st ui h)
  refine ⟨hseq, ?_⟩
  unfold tagsetCur
  cases hs : (applyVSeq st ops).mon.seltags
  · simpa using hseq.1
  · simpa using hseq.2

/-- Witness for C9: starting from a `createmon` monitor, viewing tag 3,
toggling tag 2 in, and swapping back with `view(0)` leaves a non-zero
selected tagset. -/
theorem C9_tagset_nonzero_witness :
    tagsetCur (applyVSeq cmState [VOp.viewO 4, VOp.toggleviewO 2, VOp.viewO 0]).mon ≠ 0 :=
  (C9_tagset_nonzero [VOp.viewO 4, VOp.toggleviewO 2, VOp.viewO 0] cmState
    (by decide)).2.2

end Dwm

/-! ## Evaluation helper for `applysizehints` on hint-free clients -/

namespace Dwm

/-- For a client with no size hints (all base/inc/min/max fields zero, no
aspect limits) and a proposed rectangle inside the work area whose sides are
at least `bh` and at least 1, `applysizehints` passes the rectangle through
unchanged; the return flag compares it against the current geometry. -/
theorem applysizehints_nohints (st : GState) (c : GClient) (x y w h : Int)
    (hb1 : c.basew = 0) (hb2 : c.baseh = 0) (hi1 : c.incw = 0) (hi2 : c.inch = 0)
    (hm1 : c.minw = 0) (hm2 : c.minh = 0) (hx1 : c.maxw = 0) (hx2 : c.maxh = 0)
    (hna : ¬(0 < c.mina ∧ 0 < c.maxa))
    (hpx : x < st.mon.window_x + st.mon.window_width)
    (hpy : y < st.mon.window_y + st.mon.window_height)
    (hqx : st.mon.window_x < x + w + 2 * c.bw)
    (hqy : st.mon.window_y < y + h + 2 * c.bw)
    (hw : st.bh ≤ w) (hh : st.bh ≤ h) (hw1 : 1 ≤ w) (hh1 : 1 ≤ h) :
    applysizehints st c x y w h false =
      ⟨x != c.x_pos || y != c.y_pos || w != c.width || h != c.height, x, y, w, h⟩ := by
  rw [applysizehints]
  simp only [max_eq_right hw1, max_eq_right hh1, Bool.false_eq_true, if_false,
    if_neg (not_le.mpr hpx), if_neg (not_le.mpr hpy),
    if_neg (not_lt.mpr hw), if_neg (not_lt.mpr hh),
    if_neg (not_le.mpr hqx), if_neg (not_le.mpr hqy),
    hb1, hb2, hi1, hi2, hm1, hm2, hx1, hx2,
    resizehints, Bool.true_or, if_pos, if_neg hna]
  have hw0 : (0:Int) ≤ w := by omega
  have hh0 : (0:Int) ≤ h := by omega
  simp [max_eq_left hw0, max_eq_left hh0, hw0, hh0]

end Dwm

/-! ## Claim C4: zero-gap commits under monocle / single client -/

namespace Dwm

theorem toInt32_eq {a : Int} (h1 : -2147483648 ≤ a) (h2 : a < 2147483648) : toInt32 a = a := by
  unfold toInt32 u32Mod
  split <;> omega

theorem toInt32_sub_gapincr {w : Int} (h0 : 0 ≤ w) (h2 : w + 2 * borderpx < 2147483648) :
    toInt32 (w - u32 (-(2 * borderpx))) = w + 2 * borderpx := by
  have h2' : w + 2 < 2147483648 := by simpa [borderpx] using h2
  have hu : u32 (-(2 * borderpx)) = 4294967294 := by decide
  have hmain : toInt32 (w - 4294967294) = w + 2 := by
    unfold toInt32 u32Mod
    split <;> omega
  rw [hu, hmain, borderpx]
  omega

/-- In the monocle / single-tiled-client case `resizeclient` commits the
requested position unchanged (gap offset 0), enlarges both dimensions by
`2 * borderpx` (the unsigned `gapincr = -2 * borderpx` wrap-around), and
issues the configure request with border width 0. -/
theorem resizeclient_zerogap (st : GState) (cid : Nat) (c : GClient) (x y w h : Int)
    (hc : lookupC st.cmap cid = some c) (hfl : c.isfloating = false)
    (harr : (curlt st.mon).arrange ≠ none)
    (hmn : (curlt st.mon).arrange = some AFn.monocleF ∨ tiledCount st = 1)
    (hx1 : -2147483648 ≤ x) (hx2 : x < 2147483648)
    (hy1 : -2147483648 ≤ y) (hy2 : y < 2147483648)
    (hw1 : 0 ≤ w) (hw2 : w + 2 * borderpx < 2147483648)
    (hh1 : 0 ≤ h) (hh2 : h + 2 * borderpx < 2147483648) :
    lookupC (resizeclient st cid x y w h).cmap cid = some { c with
      oldx := c.x_pos, x_pos := x,
      oldy := c.y_pos, y_pos := y,
      oldw := c.width, width := w + 2 * borderpx,
      oldh := c.height, height := h + 2 * borderpx,
      wcBorder := 0 } := by
  rw [resizeclient, hc]
  simp only
  have hcond : (c.isfloating || decide ((curlt st.mon).arrange = none)) = false := by
    simp [hfl, harr]
  have hcond2 : (decide ((curlt st.mon).arrange = some AFn.monocleF)
      || tiledCount st == 1) = true := by
    rcases hmn with hm | hm
    · simp [hm]
    · simp [hm]
  rw [if_neg (by simp [hcond]), if_pos (by simp [hcond2])]
  rw [lookupC_updateC_self _ hc]
  simp [toInt32_eq hx1 hx2, toInt32_eq hy1 hy2,
    toInt32_sub_gapincr hw1 hw2, toInt32_sub_gapincr hh1 hh2]

end Dwm

namespace Dwm

theorem resize_eq_of_ash (st : GState) (cid : Nat) (c : GClient) (x y w h : Int) (ia : Bool)
    (r : AshR) (hc : lookupC st.cmap cid = some c)
    (hash : applysizehints st c x y w h ia = r) (hch : r.changed = true) :
    resize st cid x y w h ia = resizeclient st cid r.x r.y r.w r.h := by
  rw [resize, hc]
  simp only
  rw [hash, if_pos hch]

theorem resize_noop_of_ash (st : GState) (cid : Nat) (c : GClient) (x y w h : Int) (ia : Bool)
    (r : AshR) (hc : lookupC st.cmap cid = some c)
    (hash : applysizehints st c x y w h ia = r) (hch : r.changed = false) :
    resize st cid x y w h ia = st := by
  rw [resize, hc]
  simp only
  rw [hash, if_neg (by rw [hch]; exact Bool.false_ne_true)]

end Dwm

namespace Dwm

theorem monocleLoop_single (st0 : GState) (cid : Nat) (c : GClient)
    (hc : lookupC st0.cmap cid = some c)
    (hmono : (curlt st0.mon).arrange = some AFn.monocleF)
    (hfl : c.isfloating = false)
    (hbw : c.bw = borderpx)
    (hb1 : c.basew = 0) (hb2 : c.baseh = 0) (hi1 : c.incw = 0) (hi2 : c.inch = 0)
    (hm1 : c.minw = 0) (hm2 : c.minh = 0) (hx1 : c.maxw = 0) (hx2 : c.maxh = 0)
    (hna : ¬(0 < c.mina ∧ 0 < c.maxa))
    (hbh : 0 < st0.bh)
    (hbw2 : st0.bh ≤ st0.mon.window_width - 2 * borderpx)
    (hbh2 : st0.bh ≤ st0.mon.window_height - 2 * borderpx)
    (hwx1 : -2147483648 ≤ st0.mon.window_x) (hwx2 : st0.mon.window_x < 2147483648)
    (hwy1 : -2147483648 ≤ st0.mon.window_y) (hwy2 : st0.mon.window_y < 2147483648)
    (hww : st0.mon.window_width < 2147483648) (hwh : st0.mon.window_height < 2147483648)
    (hdiff : c.width ≠ st0.mon.window_width - 2 * borderpx) :
    ∃ c', lookupC (monocleLoop st0 [cid]).cmap cid = some c' ∧
      c'.x_pos = st0.mon.window_x ∧ c'.y_pos = st0.mon.window_y ∧
      c'.width = st0.mon.window_width ∧ c'.height = st0.mon.window_height ∧
      c'.wcBorder = 0 := by
  have hbw1 : c.bw = 1 := hbw
  have hbwp : st0.bh ≤ st0.mon.window_width - 2 := hbw2
  have hbhp : st0.bh ≤ st0.mon.window_height - 2 := hbh2
  have hdiffp : c.width ≠ st0.mon.window_width - 2 := hdiff
  rw [monocleLoop, hc]
  simp only
  have hash := applysizehints_nohints st0 c st0.mon.window_x st0.mon.window_y
    (st0.mon.window_width - 2 * c.bw) (st0.mon.window_height - 2 * c.bw)
    hb1 hb2 hi1 hi2 hm1 hm2 hx1 hx2 hna
    (by omega) (by omega) (by rw [hbw1]; omega) (by rw [hbw1]; omega)
    (by rw [hbw1]; omega) (by rw [hbw1]; omega) (by rw [hbw1]; omega) (by rw [hbw1]; omega)
  have hch : ((st0.mon.window_x != c.x_pos) || (st0.mon.window_y != c.y_pos)
      || (st0.mon.window_width - 2 * c.bw != c.width)
      || (st0.mon.window_height - 2 * c.bw != c.height)) = true := by
    have : (st0.mon.window_width - 2 * c.bw != c.width) = true := by
      rw [hbw1]
      exact bne_iff_ne.mpr (fun he => hdiffp (he.symm))
    simp [this]
  rw [resize_eq_of_ash st0 cid c _ _ _ _ false _ hc hash hch]
  have harr : (curlt st0.mon).arrange ≠ none := by rw [hmono]; simp
  have hz := resizeclient_zerogap st0 cid c st0.mon.window_x st0.mon.window_y
    (st0.mon.window_width - 2 * c.bw) (st0.mon.window_height - 2 * c.bw)
    hc hfl harr (Or.inl hmono) hwx1 hwx2 hwy1 hwy2
    (by rw [hbw1]; omega) (by rw [hbw1]; simp only [borderpx]; omega)
    (by rw [hbw1]; omega) (by rw [hbw1]; simp only [borderpx]; omega)
  rw [monocleLoop]
  refine ⟨_, hz, rfl, rfl, ?_, ?_, rfl⟩
  · show st0.mon.window_width - 2 * c.bw + 2 * borderpx = st0.mon.window_width
    rw [hbw1]
    simp only [borderpx]
    omega
  · show st0.mon.window_height - 2 * c.bw + 2 * borderpx = st0.mon.window_height
    rw [hbw1]
    simp only [borderpx]
    omega

end Dwm

namespace Dwm

/-- Claim C4: when a resize is committed for a non-floating client under a
non-null arranger and the arranger is monocle or the monitor has exactly one
visible tiled client, the gap offset is 0 (position committed unchanged),
the committed width and height exceed the requested ones by `2 * borderpx`,
and the window is configured with border width 0; in particular a single
hint-free tiled client under monocle comes to occupy the work area exactly,
with zero gap and zero border. -/
theorem C4_zerogap_monocle_single :
    (∀ (st : GState) (cid : Nat) (c : GClient) (x y w h : Int),
      lookupC st.cmap cid = some c → c.isfloating = false →
      (curlt st.mon).arrange ≠ none →
      ((curlt st.mon).arrange = some AFn.monocleF ∨ tiledCount st = 1) →
      -2147483648 ≤ x → x < 2147483648 → -2147483648 ≤ y → y < 2147483648 →
      0 ≤ w → w + 2 * borderpx < 2147483648 → 0 ≤ h → h + 2 * borderpx < 2147483648 →
      lookupC (resizeclient st cid x y w h).cmap cid = some { c with
        oldx := c.x_pos, x_pos := x,
        oldy := c.y_pos, y_pos := y,
        oldw := c.width, width := w + 2 * borderpx,
        oldh := c.height, height := h + 2 * borderpx,
        wcBorder := 0 }) ∧
    (∀ (st : GState) (cid : Nat) (c : GClient),
      lookupC st.cmap cid = some c →
      nexttiledList st = [cid] →
      (curlt st.mon).arrange = some AFn.monocleF →
      c.bw = borderpx →
      c.basew = 0 → c.baseh = 0 → c.incw = 0 → c.inch = 0 →
      c.minw = 0 → c.minh = 0 → c.maxw = 0 → c.maxh = 0 →
      ¬(0 < c.mina ∧ 0 < c.maxa) →
      0 < st.bh →
      st.bh ≤ st.mon.window_width - 2 * borderpx →
      st.bh ≤ st.mon.window_height - 2 * borderpx →
      -2147483648 ≤ st.mon.window_x → st.mon.window_x < 2147483648 →
      -2147483648 ≤ st.mon.window_y → st.mon.window_y < 2147483648 →
      st.mon.window_width < 2147483648 → st.mon.window_height < 2147483648 →
      c.width ≠ st.mon.window_width - 2 * borderpx →
      ∃ c', lookupC (monocle st).cmap cid = some c' ∧
        c'.x_pos = st.mon.window_x ∧ c'.y_pos = st.mon.window_y ∧
        c'.width = st.mon.window_width ∧ c'.height = st.mon.window_height ∧
        c'.wcBorder = 0) := by
  constructor
  · intro st cid c x y w h hc hfl harr hmn hx1 hx2 hy1 hy2 hw1 hw2 hh1 hh2
    exact resizeclient_zerogap st cid c x y w h hc hfl harr hmn hx1 hx2 hy1 hy2 hw1 hw2 hh1 hh2
  · intro st cid c hc hlist hmono hbw hb1 hb2 hi1 hi2 hm1 hm2 hx1 hx2 hna hbh
      hbw2 hbh2 hwx1 hwx2 hwy1 hwy2 hww hwh hdiff
    have hmem : cid ∈ st.mon.clients.filter (tiledPred st) := by
      have h0 : cid ∈ nexttiledList st := by
        rw [hlist]
        exact List.mem_singleton_self cid
      exact h0
    have hpred := (List.mem_filter.mp hmem).2
    rw [tiledPred, hc] at hpred
    simp only [Bool.and_eq_true, Bool.not_eq_true'] at hpred
    have hfl : c.isfloating = false := hpred.1
    have hvis : ISVISIBLE st.mon c = true := hpred.2
    have hvcount : 0 < (st.mon.clients.filter (fun k =>
        match lookupC st.cmap k with
        | some c0 => ISVISIBLE st.mon c0
        | none => false)).length := by
      have hmemv : cid ∈ st.mon.clients.filter (fun k =>
          match lookupC st.cmap k with
          | some c0 => ISVISIBLE st.mon c0
          | none => false) := by
        refine List.mem_filter.mpr ⟨(List.mem_filter.mp hmem).1, ?_⟩
        rw [hc]
        exact hvis
      exact List.length_pos.mpr (List.ne_nil_of_mem hmemv)
    simp only [monocle]
    rw [if_pos hvcount, hlist]
    exact monocleLoop_single _ cid c hc hmono hfl hbw hb1 hb2 hi1 hi2 hm1 hm2 hx1 hx2
      hna hbh hbw2 hbh2 hwx1 hwx2 hwy1 hwy2 hww hwh hdiff

/-- Witness for C4: in `monoState` (one visible tiled client, monocle), the
arrangement puts client 1 exactly on the 1920x1080 work area with border 0;
the general clause commits `(0, 0, 100, 200)` as `(0, 0, 102, 202)`. -/
theorem C4_zerogap_monocle_single_witness :
    (∃ c', lookupC (monocle monoState).cmap 1 = some c' ∧
      c'.x_pos = 0 ∧ c'.y_pos = 0 ∧ c'.width = 1920 ∧ c'.height = 1080 ∧ c'.wcBorder = 0) ∧
    lookupC (resizeclient monoState 1 0 0 100 200).cmap 1 = some
      { ({ baseClient with x_pos := 5, y_pos := 5, width := 300, height := 200 }) with
        oldx := 5, x_pos := 0, oldy := 5, y_pos := 0,
        oldw := 300, width := 102, oldh := 200, height := 202, wcBorder := 0 } := by
  constructor
  · exact C4_zerogap_monocle_single.2 monoState 1
      ({ baseClient with x_pos := 5, y_pos := 5, width := 300, height := 200 })
      (by decide) (by decide) (by decide)
      (by decide) (by decide) (by decide) (by decide) (by decide) (by decide) (by decide)
      (by decide) (by decide) (by decide) (by decide) (by decide) (by decide)
      (by decide) (by decide) (by decide) (by decide) (by decide) (by decide) (by decide)
  · have h := C4_zerogap_monocle_single.1 monoState 1
      ({ baseClient with x_pos := 5, y_pos := 5, width := 300, height := 200 }) 0 0 100 200
      (by decide) (by decide) (by decide) (Or.inl (by decide)) (by decide) (by decide)
      (by decide) (by decide) (by decide) (by decide) (by decide) (by decide)
    exact h

end Dwm

/-! ## Claim C6: `applysizehints` idempotence -/

namespace Dwm

/-- Claim C6 counterexample: for a floating client with `maxw = maxh = 15`
and `incw = inch = 10`, the first application of size hints to a 100x100
proposal yields 15x15, and the second application changes it again (to
10x10), returning `true` instead of `false`. -/
theorem C6_applysizehints_counterexample :
    (ashTwice hintState hintClient 50 50 100 100).changed = true ∧
    (applysizehints hintState hintClient 50 50 100 100 false).w = 15 ∧
    (ashTwice hintState hintClient 50 50 100 100).w = 10 := by
  refine ⟨?_, ?_, ?_⟩ <;> decide

/-- Evaluation of `applysizehints` for a client without increment or aspect
hints, on a position that needs no clamping: the width pipeline reduces to
clamping against `bh` from below, `minw` from below and (when set) `maxw`
from above; base subtraction and re-addition cancel. -/
theorem applysizehints_noinc (st : GState) (c : GClient) (x y w h : Int)
    (hi1 : c.incw = 0) (hi2 : c.inch = 0)
    (hna : ¬(0 < c.mina ∧ 0 < c.maxa))
    (hpx : x < st.mon.window_x + st.mon.window_width)
    (hpy : y < st.mon.window_y + st.mon.window_height)
    (hqx : st.mon.window_x < x + max 1 w + 2 * c.bw)
    (hqy : st.mon.window_y < y + max 1 h + 2 * c.bw) :
    applysizehints st c x y w h false =
      ⟨x != c.x_pos || y != c.y_pos
        || (if c.maxw ≠ 0 then min (max (if max 1 w < st.bh then st.bh else max 1 w) c.minw) c.maxw
            else max (if max 1 w < st.bh then st.bh else max 1 w) c.minw) != c.width
        || (if c.maxh ≠ 0 then min (max (if max 1 h < st.bh then st.bh else max 1 h) c.minh) c.maxh
            else max (if max 1 h < st.bh then st.bh else max 1 h) c.minh) != c.height,
       x, y,
       (if c.maxw ≠ 0 then min (max (if max 1 w < st.bh then st.bh else max 1 w) c.minw) c.maxw
        else max (if max 1 w < st.bh then st.bh else max 1 w) c.minw),
       (if c.maxh ≠ 0 then min (max (if max 1 h < st.bh then st.bh else max 1 h) c.minh) c.maxh
        else max (if max 1 h < st.bh then st.bh else max 1 h) c.minh)⟩ := by
  rw [applysizehints]
  simp only [Bool.false_eq_true, if_false,
    if_neg (not_le.mpr hpx), if_neg (not_le.mpr hpy),
    if_neg (not_le.mpr hqx), if_neg (not_le.mpr hqy),
    hi1, hi2, resizehints, Bool.true_or, if_pos, if_neg hna]
  cases hbm : (c.basew == c.minw && c.baseh == c.minh) <;>
    simp [hbm, sub_add_cancel]

end Dwm

namespace Dwm

theorem ash_stable (st : GState) (c1 : GClient) (x y w1 h1 w0 h0 : Int)
    (hi1 : c1.incw = 0) (hi2 : c1.inch = 0)
    (hna : ¬(0 < c1.mina ∧ 0 < c1.maxa))
    (hpx : x < st.mon.window_x + st.mon.window_width)
    (hpy : y < st.mon.window_y + st.mon.window_height)
    (hqx : st.mon.window_x < x + max 1 w1 + 2 * c1.bw)
    (hqy : st.mon.window_y < y + max 1 h1 + 2 * c1.bw)
    (hx : c1.x_pos = x) (hy : c1.y_pos = y)
    (hw : c1.width = w1) (hh : c1.height = h1)
    (hwf : w1 = (if c1.maxw ≠ 0 then
        min (max (if max 1 w0 < st.bh then st.bh else max 1 w0) c1.minw) c1.maxw
      else max (if max 1 w0 < st.bh then st.bh else max 1 w0) c1.minw))
    (hhf : h1 = (if c1.maxh ≠ 0 then
        min (max (if max 1 h0 < st.bh then st.bh else max 1 h0) c1.minh) c1.maxh
      else max (if max 1 h0 < st.bh then st.bh else max 1 h0) c1.minh)) :
    (applysizehints st c1 x y w1 h1 false).changed = false := by
  rw [applysizehints_noinc st c1 x y w1 h1 hi1 hi2 hna hpx hpy hqx hqy]
  simp only [hx, hy, hw, hh, bne_self_eq_false, Bool.false_or, Bool.or_eq_false_iff,
    bne_eq_false_iff_eq]
  constructor
  · conv_rhs => rw [hwf]
    rw [hwf]
    split_ifs <;> omega
  · conv_rhs => rw [hhf]
    rw [hhf]
    split_ifs <;> omega

/-- Claim C6 (amended): `apply_size_hints` is idempotent for clients without
increment or aspect hints when the proposed position lies inside the work
area: re-applying it to its own output (with the client's geometry updated
to that output) reports no change. -/
theorem C6_applysizehints_idempotent_amended (st : GState) (c : GClient) (x y w h : Int)
    (hi1 : c.incw = 0) (hi2 : c.inch = 0)
    (hna : ¬(0 < c.mina ∧ 0 < c.maxa))
    (hwx : st.mon.window_x ≤ x) (hpx : x < st.mon.window_x + st.mon.window_width)
    (hwy : st.mon.window_y ≤ y) (hpy : y < st.mon.window_y + st.mon.window_height)
    (hbw : 0 ≤ c.bw) :
    (ashTwice st c x y w h).changed = false := by
  simp only [ashTwice]
  rw [applysizehints_noinc st c x y w h hi1 hi2 hna hpx hpy
    (by have := le_max_left (1:Int) w; omega) (by have := le_max_left (1:Int) h; omega)]
  dsimp only
  exact ash_stable st _ x y _ _ w h hi1 hi2 hna hpx hpy
    (by dsimp only; split_ifs <;> omega)
    (by dsimp only; split_ifs <;> omega)
    rfl rfl rfl rfl rfl rfl

/-- Witness for the amended C6: a hint-free client at a 300x200 proposal
inside the work area; the second application reports no change. -/
theorem C6_applysizehints_idempotent_amended_witness :
    (ashTwice stackState baseClient 50 50 300 200).changed = false :=
  C6_applysizehints_idempotent_amended stackState baseClient 50 50 300 200
    (by decide) (by decide) (by decide) (by decide) (by decide) (by decide) (by decide)
    (by decide)

end Dwm

/-! ## Claim C2: the tile layout on two clients -/

namespace Dwm

theorem resizeclient_lookup_ne (st : GState) (cid k : Nat) (x y w h : Int) (hk : k ≠ cid) :
    lookupC (resizeclient st cid x y w h).cmap k = lookupC st.cmap k := by
  rw [resizeclient]
  cases hc : lookupC st.cmap cid
  · rfl
  · exact lookupC_updateC_ne _ hk

theorem resize_lookup_ne (st : GState) (cid k : Nat) (x y w h : Int) (ia : Bool) (hk : k ≠ cid) :
    lookupC (resize st cid x y w h ia).cmap k = lookupC st.cmap k := by
  rw [resize]
  cases hc : lookupC st.cmap cid
  · rfl
  · simp only
    split
    · exact resizeclient_lookup_ne st cid k _ _ _ _ hk
    · rfl

theorem resizeclient_lookup_self (st : GState) (cid : Nat) (c : GClient) (x y w h : Int)
    (hc : lookupC st.cmap cid = some c) :
    ∃ c', lookupC (resizeclient st cid x y w h).cmap cid = some c' ∧
      c'.isfloating = c.isfloating ∧ c'.tags = c.tags ∧ c'.isfullscreen = c.isfullscreen ∧
      c'.bw = c.bw := by
  rw [resizeclient, hc]
  simp only
  rw [lookupC_updateC_self _ hc]
  exact ⟨_, rfl, rfl, rfl, rfl, rfl⟩

theorem resizeclient_tiledPred (st : GState) (cid : Nat) (x y w h : Int) (k : Nat) :
    tiledPred (resizeclient st cid x y w h) k = tiledPred st k := by
  have hmon : (resizeclient st cid x y w h).mon = st.mon := by
    rw [resizeclient_shape]
  by_cases hk : k = cid
  · subst hk
    cases hc : lookupC st.cmap k with
    | none =>
      have hres : resizeclient st k x y w h = st := by rw [resizeclient, hc]
      rw [hres]
    | some c =>
      obtain ⟨c', hc', hf', ht', _, _⟩ := resizeclient_lookup_self st k c x y w h hc
      rw [tiledPred, tiledPred, hmon, hc', hc]
      simp only [ISVISIBLE, hf', ht']
  · rw [tiledPred, tiledPred, hmon, resizeclient_lookup_ne st cid k _ _ _ _ hk]

theorem resizeclient_nexttiledList (st : GState) (cid : Nat) (x y w h : Int) :
    nexttiledList (resizeclient st cid x y w h) = nexttiledList st := by
  have hmon : (resizeclient st cid x y w h).mon = st.mon := by
    rw [resizeclient_shape]
  rw [nexttiledList, nexttiledList, hmon]
  exact List.filter_congr (fun k _ => resizeclient_tiledPred st cid x y w h k)

/-- In the regular tiled branch (non-floating client, non-monocle arranger,
more than one tiled client) `resizeclient` offsets the position by
`window_gap` and shrinks both dimensions by `2 * window_gap`, keeping the
client's border width in the configure request. -/
theorem resizeclient_gap (st : GState) (cid : Nat) (c : GClient) (x y w h : Int)
    (hc : lookupC st.cmap cid = some c) (hfl : c.isfloating = false)
    (harr : (curlt st.mon).arrange ≠ none)
    (hnm : (curlt st.mon).arrange ≠ some AFn.monocleF)
    (hn1 : tiledCount st ≠ 1)
    (hx1 : -2147483648 ≤ x + window_gap) (hx2 : x + window_gap < 2147483648)
    (hy1 : -2147483648 ≤ y + window_gap) (hy2 : y + window_gap < 2147483648)
    (hw1 : -2147483648 ≤ w - 2 * window_gap) (hw2 : w - 2 * window_gap < 2147483648)
    (hh1 : -2147483648 ≤ h - 2 * window_gap) (hh2 : h - 2 * window_gap < 2147483648) :
    lookupC (resizeclient st cid x y w h).cmap cid = some { c with
      oldx := c.x_pos, x_pos := x + window_gap,
      oldy := c.y_pos, y_pos := y + window_gap,
      oldw := c.width, width := w - 2 * window_gap,
      oldh := c.height, height := h - 2 * window_gap,
      wcBorder := c.bw } := by
  rw [resizeclient, hc]
  simp only
  rw [if_neg (by simp [hfl, harr]), if_neg (by simp [hnm, hn1])]
  rw [lookupC_updateC_self _ hc]
  have hgo : u32 window_gap = 6 := by decide
  have hgi : u32 (2 * window_gap) = 12 := by decide
  have e1 : toInt32 (x + u32 window_gap) = x + window_gap := by
    rw [hgo]
    rw [show x + (6:Int) = x + window_gap from rfl]
    exact toInt32_eq hx1 hx2
  have e2 : toInt32 (y + u32 window_gap) = y + window_gap := by
    rw [hgo]
    rw [show y + (6:Int) = y + window_gap from rfl]
    exact toInt32_eq hy1 hy2
  have e3 : toInt32 (w - u32 (2 * window_gap)) = w - 2 * window_gap := by
    rw [hgi]
    rw [show w - (12:Int) = w - 2 * window_gap from rfl]
    exact toInt32_eq hw1 hw2
  have e4 : toInt32 (h - u32 (2 * window_gap)) = h - 2 * window_gap := by
    rw [hgi]
    rw [show h - (12:Int) = h - 2 * window_gap from rfl]
    exact toInt32_eq hh1 hh2
  rw [e1, e2, e3, e4]

theorem showhideGo_noop (st : GState) (l : List Nat)
    (harr : (curlt st.mon).arrange ≠ none)
    (hnf : ∀ k ∈ l, ∀ ck, lookupC st.cmap k = some ck → ck.isfloating = false) :
    showhideGo st l = st := by
  induction l with
  | nil => rfl
  | cons k rest ih =>
    rw [showhideGo]
    cases hc : lookupC st.cmap k with
    | none => exact ih (fun k2 hk2 => hnf k2 (List.mem_cons_of_mem _ hk2))
    | some ck =>
      simp only
      have hflk : ck.isfloating = false := hnf k (List.mem_cons_self ..) ck hc
      have hcond : ((decide ((curlt st.mon).arrange = none) || ck.isfloating)
          && !ck.isfullscreen) = false := by
        simp [hflk, harr]
      by_cases hv : ISVISIBLE st.mon ck
      · rw [if_pos hv]
        simp only [hcond, Bool.false_eq_true, if_false]
        exact ih (fun k2 hk2 => hnf k2 (List.mem_cons_of_mem _ hk2))
      · rw [if_neg hv]
        exact ih (fun k2 hk2 => hnf k2 (List.mem_cons_of_mem _ hk2))

end Dwm

namespace Dwm

set_option maxHeartbeats 4000000 in
theorem tile2_eval :
    ((lookupC (arrange tile2State).cmap 1).map fun c => (c.x_pos, c.y_pos, c.width, c.height))
        = some (6, 6, 1042, 1066) ∧
    ((lookupC (arrange tile2State).cmap 2).map fun c => (c.x_pos, c.y_pos, c.width, c.height))
        = some (1062, 6, 850, 1066) := by
  norm_num [arrange, arrangemon, showhide, showhideGo, tile, tileLoop,
    tile2State, tileMon, baseClient, nexttiledList, tiledPred, lookupC, updateC,
    ISVISIBLE, tagsetCur, curlt, resize, applysizehints, resizeclient, tiledCount,
    cTrunc, u32, toInt32, u32Mod, cWIDTH, cHEIGHT, borderpx, window_gap, resizehints,
    baseState]
  decide

end Dwm

namespace Dwm

/-- Claim C2 counterexample: in the two-terminal tile scenario the second
client is committed at `x = 1062` with width `850` (the gap offset is added
to both clients and `2*window_gap` is subtracted from the width), not at
`x = 1056` with width `856` as the claim computes. -/
theorem C2_tile_counterexample :
    ((lookupC (arrange tile2State).cmap 2).map fun c => (c.x_pos, c.y_pos, c.width, c.height))
        = some (1062, 6, 850, 1066) ∧
    ((1062, 6, 850, 1066) : Int × Int × Int × Int) ≠ (1056, 6, 856, 1066) :=
  ⟨tile2_eval.2, by decide⟩

/-- Claim C2 (amended): under the tile layout with nmaster 1, mfact 0.55,
window_gap 6, border width 1, work area 1920x1080 at the origin, no size
hints and exactly two visible non-floating clients, arranging produces
client A at `(6, 6, 1042, 1066)` (as claimed) and client B at
`x = 1062, y = 6, w = 850, h = 1066` (the code offsets B's position by the
gap as well and subtracts `2*window_gap` from its width). -/
theorem C2_tile_two_clients_amended :
    ((lookupC (arrange tile2State).cmap 1).map fun c => (c.x_pos, c.y_pos, c.width, c.height))
        = some (6, 6, 1042, 1066) ∧
    ((lookupC (arrange tile2State).cmap 2).map fun c => (c.x_pos, c.y_pos, c.width, c.height))
        = some (1062, 6, 850, 1066) :=
  tile2_eval

end Dwm

/-! ## Claim C3: the fullscreen round trip -/

namespace Dwm

/-- Claim C3 counterexample: a tiled client at `(100, 100, 800, 600)` with
border 1 enters and leaves fullscreen; the exit path re-applies the gap
policy and re-arranges the monitor, so the client ends at `(0, 0, 1920,
1080)` — the saved geometry is not restored (border width and floating flag
are). -/
theorem C3_setfullscreen_counterexample :
    ((lookupC (setfullscreen (setfullscreen fsState 1 true) 1 false).cmap 1).map
        fun c => (c.x_pos, c.y_pos, c.width, c.height, c.bw, c.isfloating))
      = some (0, 0, 1920, 1080, 1, false) ∧
    ((0, 0, 1920, 1080, (1 : Int), false) : Int × Int × Int × Int × Int × Bool)
      ≠ (100, 100, 800, 600, 1, false) := by
  constructor
  · decide
  · decide

end Dwm

namespace Dwm

/-- With `interact = false`, `applysizehints` reads the state only through
the monitor and the bar height. -/
theorem ash_state_congr (st1 st2 : GState) (c : GClient) (x y w h : Int)
    (hmon : st1.mon = st2.mon) (hbh : st1.bh = st2.bh) :
    applysizehints st1 c x y w h false = applysizehints st2 c x y w h false := by
  simp only [applysizehints, hmon, hbh, Bool.false_eq_true, if_false]

/-- `applysizehints` reads the client only through its geometry, size-hint
fields, border width and floating flag. -/
theorem ash_client_congr (st : GState) (c1 c2 : GClient) (x y w h : Int) (ia : Bool)
    (e1 : c1.x_pos = c2.x_pos) (e2 : c1.y_pos = c2.y_pos)
    (e3 : c1.width = c2.width) (e4 : c1.height = c2.height)
    (e5 : c1.basew = c2.basew) (e6 : c1.baseh = c2.baseh)
    (e7 : c1.incw = c2.incw) (e8 : c1.inch = c2.inch)
    (e9 : c1.minw = c2.minw) (e10 : c1.minh = c2.minh)
    (e11 : c1.maxw = c2.maxw) (e12 : c1.maxh = c2.maxh)
    (e13 : c1.mina = c2.mina) (e14 : c1.maxa = c2.maxa)
    (e15 : c1.bw = c2.bw) (e16 : c1.isfloating = c2.isfloating) :
    applysizehints st c1 x y w h ia = applysizehints st c2 x y w h ia := by
  simp only [applysizehints, cWIDTH, cHEIGHT,
    e1, e2, e3, e4, e5, e6, e7, e8, e9, e10, e11, e12, e13, e14, e15, e16]

/-- `resizeclient` on a floating client: no gap adjustment, border kept. -/
theorem resizeclient_float_lookup (st : GState) (cid : Nat) (c : GClient) (x y w h : Int)
    (hc : lookupC st.cmap cid = some c) (hfl : c.isfloating = true) :
    lookupC (resizeclient st cid x y w h).cmap cid = some { c with
      oldx := c.x_pos, x_pos := toInt32 x,
      oldy := c.y_pos, y_pos := toInt32 y,
      oldw := c.width, width := toInt32 w,
      oldh := c.height, height := toInt32 h,
      wcBorder := c.bw } := by
  rw [resizeclient, hc]
  simp only
  rw [if_pos (by simp [hfl])]
  rw [lookupC_updateC_self _ hc]
  simp

/-- The state computed by the fullscreen-entry branch. -/
theorem setfullscreen_enter_eq (st : GState) (cid : Nat) (c : GClient)
    (hc : lookupC st.cmap cid = some c) (hfs : c.isfullscreen = false) :
    setfullscreen st cid true = resizeclient
      { st with cmap := updateC st.cmap cid { c with
          isfullscreen := true, oldstate := c.isfloating,
          oldbw := c.bw, bw := 0, isfloating := true } }
      cid st.mon.mon_x st.mon.mon_y st.mon.mon_width st.mon.mon_height := by
  rw [setfullscreen, hc]
  simp only
  rw [if_pos (by simp [hfs])]

/-- The state computed by the fullscreen-exit branch. -/
theorem setfullscreen_exit_eq (st : GState) (cid : Nat) (c : GClient)
    (hc : lookupC st.cmap cid = some c) (hfs : c.isfullscreen = true) :
    setfullscreen st cid false = arrange (resizeclient
      { st with cmap := updateC st.cmap cid { c with
          isfullscreen := false, isfloating := c.oldstate, bw := c.oldbw,
          x_pos := c.oldx, y_pos := c.oldy, width := c.oldw, height := c.oldh } }
      cid c.oldx c.oldy c.oldw c.oldh) := by
  rw [setfullscreen, hc]
  simp only
  rw [if_neg (by simp), if_pos (by simp [hfs])]

theorem tileLoop_lookup_notmem (l : List Nat) (st : GState) (n mw i my ty : Int) (k : Nat)
    (hk : k ∉ l) :
    lookupC (tileLoop st l n mw i my ty).cmap k = lookupC st.cmap k := by
  induction l generalizing st i my ty with
  | nil => rfl
  | cons cid rest ih =>
    have hk1 : k ≠ cid := fun he => hk (he ▸ List.mem_cons_self ..)
    have hk2 : k ∉ rest := fun he => hk (List.mem_cons_of_mem _ he)
    rw [tileLoop]
    cases hc : lookupC st.cmap cid
    · exact ih _ _ _ _ hk2
    · simp only
      split
      · rw [ih _ _ _ _ hk2, resize_lookup_ne _ _ _ _ _ _ _ _ hk1]
      · rw [ih _ _ _ _ hk2, resize_lookup_ne _ _ _ _ _ _ _ _ hk1]

theorem monocleLoop_lookup_notmem (l : List Nat) (st : GState) (k : Nat) (hk : k ∉ l) :
    lookupC (monocleLoop st l).cmap k = lookupC st.cmap k := by
  induction l generalizing st with
  | nil => rfl
  | cons cid rest ih =>
    have hk1 : k ≠ cid := fun he => hk (he ▸ List.mem_cons_self ..)
    have hk2 : k ∉ rest := fun he => hk (List.mem_cons_of_mem _ he)
    rw [monocleLoop]
    cases hc : lookupC st.cmap cid
    · exact ih _ hk2
    · simp only
      rw [ih _ hk2]
      exact resize_lookup_ne _ _ _ _ _ _ _ _ hk1

theorem bstackLoop_lookup_notmem (l : List Nat) (st : GState) (n mh tw i mx tx ty : Int)
    (k : Nat) (hk : k ∉ l) :
    lookupC (bstackLoop st l n mh tw i mx tx ty).cmap k = lookupC st.cmap k := by
  induction l generalizing st i mx tx ty with
  | nil => rfl
  | cons cid rest ih =>
    have hk1 : k ≠ cid := fun he => hk (he ▸ List.mem_cons_self ..)
    have hk2 : k ∉ rest := fun he => hk (List.mem_cons_of_mem _ he)
    rw [bstackLoop]
    cases hc : lookupC st.cmap cid
    · exact ih _ _ _ _ _ hk2
    · simp only
      split
      · rw [ih _ _ _ _ _ hk2, resize_lookup_ne _ _ _ _ _ _ _ _ hk1]
      · rw [ih _ _ _ _ _ hk2, resize_lookup_ne _ _ _ _ _ _ _ _ hk1]

theorem bstackhorizLoop_lookup_notmem (l : List Nat) (st : GState) (n mh th i mx ty : Int)
    (k : Nat) (hk : k ∉ l) :
    lookupC (bstackhorizLoop st l n mh th i mx ty).cmap k = lookupC st.cmap k := by
  induction l generalizing st i mx ty with
  | nil => rfl
  | cons cid rest ih =>
    have hk1 : k ≠ cid := fun he => hk (he ▸ List.mem_cons_self ..)
    have hk2 : k ∉ rest := fun he => hk (List.mem_cons_of_mem _ he)
    rw [bstackhorizLoop]
    cases hc : lookupC st.cmap cid
    · exact ih _ _ _ _ hk2
    · simp only
      split
      · rw [ih _ _ _ _ hk2, resize_lookup_ne _ _ _ _ _ _ _ _ hk1]
      · rw [ih _ _ _ _ hk2, resize_lookup_ne _ _ _ _ _ _ _ _ hk1]

end Dwm

namespace Dwm

theorem showhideGo_fix (l : List Nat) (st : GState) (cid : Nat) (c : GClient)
    (hc : lookupC st.cmap cid = some c)
    (hfl : c.isfloating = true) (hfs : c.isfullscreen = false)
    (hfix : (applysizehints st c c.x_pos c.y_pos c.width c.height false).changed = false) :
    lookupC (showhideGo st l).cmap cid = some c := by
  induction l generalizing st with
  | nil => exact hc
  | cons k rest ih =>
    rw [showhideGo]
    cases hck : lookupC st.cmap k with
    | none => exact ih st hc hfix
    | some ck =>
      simp only
      by_cases hkc : k = cid
      · subst hkc
        rw [hc] at hck
        have hceq : c = ck := Option.some_inj.mp hck
        subst hceq
        by_cases hv : ISVISIBLE st.mon c
        · rw [if_pos hv]
          have hcond : ((decide ((curlt st.mon).arrange = none) || c.isfloating)
              && !c.isfullscreen) = true := by
            simp [hfl, hfs]
          simp only [hcond, if_true]
          rw [resize_noop_of_ash st k c c.x_pos c.y_pos c.width c.height false _ hc rfl hfix]
          exact ih st hc hfix
        · rw [if_neg hv]
          exact ih st hc hfix
      · have hck2 : cid ≠ k := fun he => hkc he.symm
        by_cases hv : ISVISIBLE st.mon ck
        · rw [if_pos hv]
          by_cases hcond : ((decide ((curlt st.mon).arrange = none) || ck.isfloating)
              && !ck.isfullscreen) = true
          · simp only [hcond, if_true]
            have hmon' : (resize st k ck.x_pos ck.y_pos ck.width ck.height false).mon = st.mon := by
              rw [resize_shape]
            have hbh' : (resize st k ck.x_pos ck.y_pos ck.width ck.height false).bh = st.bh := by
              rw [resize_shape]
            have hc' : lookupC (resize st k ck.x_pos ck.y_pos ck.width ck.height false).cmap cid
                = some c := by
              rw [resize_lookup_ne _ _ _ _ _ _ _ _ hck2]
              exact hc
            have hfix' : (applysizehints (resize st k ck.x_pos ck.y_pos ck.width ck.height false)
                c c.x_pos c.y_pos c.width c.height false).changed = false := by
              rw [ash_state_congr _ st c _ _ _ _ hmon' hbh']
              exact hfix
            exact ih _ hc' hfix'
          · simp only [Bool.not_eq_true] at hcond
            simp only [hcond, Bool.false_eq_true, if_false]
            exact ih st hc hfix
        · rw [if_neg hv]
          exact ih st hc hfix

theorem tile_lookup_notmem (st : GState) (k : Nat) (hk : k ∉ nexttiledList st) :
    lookupC (tile st).cmap k = lookupC st.cmap k := by
  rw [tile]
  split
  · rfl
  · exact tileLoop_lookup_notmem _ _ _ _ _ _ _ _ hk

theorem monocle_lookup_notmem (st : GState) (k : Nat) (hk : k ∉ nexttiledList st) :
    lookupC (monocle st).cmap k = lookupC st.cmap k := by
  rw [monocle]
  split
  · exact monocleLoop_lookup_notmem _ _ _ hk
  · exact monocleLoop_lookup_notmem _ _ _ hk

theorem bstack_lookup_notmem (st : GState) (k : Nat) (hk : k ∉ nexttiledList st) :
    lookupC (bstack st).cmap k = lookupC st.cmap k := by
  rw [bstack]
  split
  · rfl
  · exact bstackLoop_lookup_notmem _ _ _ _ _ _ _ _ _ _ hk

theorem bstackhoriz_lookup_notmem (st : GState) (k : Nat) (hk : k ∉ nexttiledList st) :
    lookupC (bstackhoriz st).cmap k = lookupC st.cmap k := by
  rw [bstackhoriz]
  split
  · rfl
  · exact bstackhorizLoop_lookup_notmem _ _ _ _ _ _ _ _ _ hk

theorem arrangemon_lookup_notmem (st : GState) (k : Nat) (hk : k ∉ nexttiledList st) :
    lookupC (arrangemon st).cmap k = lookupC st.cmap k := by
  rw [arrangemon]
  cases harr : (curlt { st.mon with ltsymbol := (curlt st.mon).symbol }).arrange with
  | none => rfl
  | some f =>
    cases f
    · exact tile_lookup_notmem _ _ hk
    · exact monocle_lookup_notmem _ _ hk
    · exact bstack_lookup_notmem _ _ hk
    · exact bstackhoriz_lookup_notmem _ _ hk

/-- A visible floating, non-fullscreen client whose geometry `applysizehints`
leaves unchanged is untouched by a full `arrange` pass. -/
theorem arrange_fix (st : GState) (cid : Nat) (c : GClient)
    (hc : lookupC st.cmap cid = some c)
    (hfl : c.isfloating = true) (hfs : c.isfullscreen = false)
    (hfix : (applysizehints st c c.x_pos c.y_pos c.width c.height false).changed = false) :
    lookupC (arrange st).cmap cid = some c := by
  rw [arrange]
  have h1 : lookupC (showhide st).cmap cid = some c := showhideGo_fix _ st cid c hc hfl hfs hfix
  have hpred : tiledPred (showhide st) cid = false := by
    rw [tiledPred, h1]
    simp [hfl]
  have hnot : cid ∉ nexttiledList (showhide st) := by
    intro hmem
    have hmem2 := (List.mem_filter.mp hmem).2
    rw [hpred] at hmem2
    exact Bool.false_ne_true hmem2
  rw [arrangemon_lookup_notmem _ _ hnot]
  exact h1

end Dwm

namespace Dwm

theorem resizeclient_shape' (st : GState) (cm0 : List (Nat × GClient)) (cid : Nat)
    (x y w h : Int) :
    ∃ cm, resizeclient { st with cmap := cm0 } cid x y w h = { st with cmap := cm } :=
  ⟨_, resizeclient_shape _ _ _ _ _ _⟩

/-- Leaving fullscreen restores the saved geometry, border width and floating
flag, and the subsequent `arrange` leaves the (floating) client alone. -/
theorem setfullscreen_exit_restore (st : GState) (cid : Nat) (c2 : GClient)
    (hc : lookupC st.cmap cid = some c2)
    (hfs : c2.isfullscreen = true) (hos : c2.oldstate = true)
    (hx1 : -2147483648 ≤ c2.oldx) (hx2 : c2.oldx < 2147483648)
    (hy1 : -2147483648 ≤ c2.oldy) (hy2 : c2.oldy < 2147483648)
    (hw1 : -2147483648 ≤ c2.oldw) (hw2 : c2.oldw < 2147483648)
    (hh1 : -2147483648 ≤ c2.oldh) (hh2 : c2.oldh < 2147483648)
    (hfix : (applysizehints st { c2 with
        x_pos := c2.oldx, y_pos := c2.oldy, width := c2.oldw, height := c2.oldh,
        bw := c2.oldbw, isfloating := true }
        c2.oldx c2.oldy c2.oldw c2.oldh false).changed = false) :
    ∃ c', lookupC (setfullscreen st cid false).cmap cid = some c' ∧
      c'.x_pos = c2.oldx ∧ c'.y_pos = c2.oldy ∧
      c'.width = c2.oldw ∧ c'.height = c2.oldh ∧
      c'.bw = c2.oldbw ∧ c'.isfloating = true ∧ c'.isfullscreen = false := by
  have h3 : lookupC (resizeclient { st with cmap := updateC st.cmap cid { c2 with
      isfullscreen := false, isfloating := c2.oldstate, bw := c2.oldbw,
      x_pos := c2.oldx, y_pos := c2.oldy, width := c2.oldw, height := c2.oldh } }
      cid c2.oldx c2.oldy c2.oldw c2.oldh).cmap cid = some { c2 with
      isfullscreen := false, isfloating := c2.oldstate, bw := c2.oldbw,
      oldx := c2.oldx, x_pos := toInt32 c2.oldx,
      oldy := c2.oldy, y_pos := toInt32 c2.oldy,
      oldw := c2.oldw, width := toInt32 c2.oldw,
      oldh := c2.oldh, height := toInt32 c2.oldh,
      wcBorder := c2.oldbw } :=
    resizeclient_float_lookup _ cid { c2 with
      isfullscreen := false, isfloating := c2.oldstate, bw := c2.oldbw,
      x_pos := c2.oldx, y_pos := c2.oldy, width := c2.oldw, height := c2.oldh }
      c2.oldx c2.oldy c2.oldw c2.oldh (lookupC_updateC_self _ hc) hos
  rw [toInt32_eq hx1 hx2, toInt32_eq hy1 hy2, toInt32_eq hw1 hw2, toInt32_eq hh1 hh2] at h3
  rw [setfullscreen_exit_eq st cid c2 hc hfs]
  obtain ⟨cm, hcm⟩ := resizeclient_shape' st (updateC st.cmap cid { c2 with
      isfullscreen := false, isfloating := c2.oldstate, bw := c2.oldbw,
      x_pos := c2.oldx, y_pos := c2.oldy, width := c2.oldw, height := c2.oldh })
      cid c2.oldx c2.oldy c2.oldw c2.oldh
  rw [hcm] at h3 ⊢
  refine ⟨_, arrange_fix _ cid _ h3 hos rfl ?_, rfl, rfl, rfl, rfl, rfl, hos, rfl⟩
  have e2 : applysizehints st ({ c2 with
      isfullscreen := false, isfloating := c2.oldstate, bw := c2.oldbw,
      oldx := c2.oldx, x_pos := c2.oldx,
      oldy := c2.oldy, y_pos := c2.oldy,
      oldw := c2.oldw, width := c2.oldw,
      oldh := c2.oldh, height := c2.oldh,
      wcBorder := c2.oldbw }) c2.oldx c2.oldy c2.oldw c2.oldh false
      = applysizehints st ({ c2 with
      x_pos := c2.oldx, y_pos := c2.oldy, width := c2.oldw, height := c2.oldh,
      bw := c2.oldbw, isfloating := true }) c2.oldx c2.oldy c2.oldw c2.oldh false :=
    ash_client_congr st _ _ c2.oldx c2.oldy c2.oldw c2.oldh false
      rfl rfl rfl rfl rfl rfl rfl rfl rfl rfl rfl rfl rfl rfl rfl hos
  exact (congrArg AshR.changed e2).trans hfix

end Dwm

namespace Dwm

/-- C3 (amended): for a floating, non-fullscreen client whose geometry is a
fixed point of `applysizehints` and fits in 32 bits, entering and then
leaving fullscreen restores the original position, size, border width and
floating flag (the spec's claim fails only in that the exit path re-issues
`resizeclient`/`arrange`, whose unsigned wrap-around can corrupt an
out-of-range saved geometry; the restoration of the floating flag from
`oldstate` and of the border from `oldbw` is as claimed). -/
theorem C3_setfullscreen_restore_amended (st : GState) (cid : Nat) (c : GClient)
    (hc : lookupC st.cmap cid = some c)
    (hfl : c.isfloating = true) (hfs : c.isfullscreen = false)
    (hx1 : -2147483648 ≤ c.x_pos) (hx2 : c.x_pos < 2147483648)
    (hy1 : -2147483648 ≤ c.y_pos) (hy2 : c.y_pos < 2147483648)
    (hw1 : -2147483648 ≤ c.width) (hw2 : c.width < 2147483648)
    (hh1 : -2147483648 ≤ c.height) (hh2 : c.height < 2147483648)
    (hfix : (applysizehints st c c.x_pos c.y_pos c.width c.height false).changed = false) :
    ∃ c', lookupC (setfullscreen (setfullscreen st cid true) cid false).cmap cid = some c' ∧
      c'.x_pos = c.x_pos ∧ c'.y_pos = c.y_pos ∧
      c'.width = c.width ∧ c'.height = c.height ∧
      c'.bw = c.bw ∧ c'.isfloating = c.isfloating ∧ c'.isfullscreen = false := by
  have h1 : lookupC (setfullscreen st cid true).cmap cid = some { c with
      isfullscreen := true, oldstate := c.isfloating, oldbw := c.bw,
      bw := 0, isfloating := true,
      oldx := c.x_pos, x_pos := toInt32 st.mon.mon_x,
      oldy := c.y_pos, y_pos := toInt32 st.mon.mon_y,
      oldw := c.width, width := toInt32 st.mon.mon_width,
      oldh := c.height, height := toInt32 st.mon.mon_height,
      wcBorder := 0 } := by
    rw [setfullscreen_enter_eq st cid c hc hfs]
    exact resizeclient_float_lookup _ cid { c with
        isfullscreen := true, oldstate := c.isfloating,
        oldbw := c.bw, bw := 0, isfloating := true }
      st.mon.mon_x st.mon.mon_y st.mon.mon_width st.mon.mon_height
      (lookupC_updateC_self _ hc) rfl
  have hmon1 : (setfullscreen st cid true).mon = st.mon := by
    rw [setfullscreen_enter_eq st cid c hc hfs, resizeclient_shape]
  have hbh1 : (setfullscreen st cid true).bh = st.bh := by
    rw [setfullscreen_enter_eq st cid c hc hfs, resizeclient_shape]
  have e1 : applysizehints (setfullscreen st cid true) ({ c with
      isfullscreen := true, oldstate := c.isfloating, oldbw := c.bw,
      bw := c.bw, isfloating := true,
      oldx := c.x_pos, x_pos := c.x_pos,
      oldy := c.y_pos, y_pos := c.y_pos,
      oldw := c.width, width := c.width,
      oldh := c.height, height := c.height,
      wcBorder := 0 }) c.x_pos c.y_pos c.width c.height false
      = applysizehints st ({ c with
      isfullscreen := true, oldstate := c.isfloating, oldbw := c.bw,
      bw := c.bw, isfloating := true,
      oldx := c.x_pos, x_pos := c.x_pos,
      oldy := c.y_pos, y_pos := c.y_pos,
      oldw := c.width, width := c.width,
      oldh := c.height, height := c.height,
      wcBorder := 0 }) c.x_pos c.y_pos c.width c.height false :=
    ash_state_congr _ _ _ c.x_pos c.y_pos c.width c.height hmon1 hbh1
  have e2 : applysizehints st ({ c with
      isfullscreen := true, oldstate := c.isfloating, oldbw := c.bw,
      bw := c.bw, isfloating := true,
      oldx := c.x_pos, x_pos := c.x_pos,
      oldy := c.y_pos, y_pos := c.y_pos,
      oldw := c.width, width := c.width,
      oldh := c.height, height := c.height,
      wcBorder := 0 }) c.x_pos c.y_pos c.width c.height false
      = applysizehints st c c.x_pos c.y_pos c.width c.height false :=
    ash_client_congr st _ _ c.x_pos c.y_pos c.width c.height false
      rfl rfl rfl rfl rfl rfl rfl rfl rfl rfl rfl rfl rfl rfl rfl hfl.symm
  obtain ⟨c', hl, hx, hy, hw, hh, hbw, hflo, hfs2⟩ :=
    setfullscreen_exit_restore (setfullscreen st cid true) cid _ h1 rfl hfl
      hx1 hx2 hy1 hy2 hw1 hw2 hh1 hh2
      ((congrArg AshR.changed (e1.trans e2)).trans hfix)
  exact ⟨c', hl, hx, hy, hw, hh, hbw, hflo.trans hfl.symm, hfs2⟩

/-- Witness for C3 amended: concrete floating client in `floatState`. -/
theorem C3_setfullscreen_restore_amended_witness :
    ∃ c', lookupC (setfullscreen (setfullscreen floatState 1 true) 1 false).cmap 1 = some c' ∧
      c'.x_pos = floatClient.x_pos ∧ c'.y_pos = floatClient.y_pos ∧
      c'.width = floatClient.width ∧ c'.height = floatClient.height ∧
      c'.bw = floatClient.bw ∧ c'.isfloating = floatClient.isfloating ∧
      c'.isfullscreen = false :=
  C3_setfullscreen_restore_amended floatState 1 floatClient (by decide) (by decide) (by decide)
    (by decide) (by decide) (by decide) (by decide) (by decide) (by decide)
    (by decide) (by decide) (by decide)

end Dwm

namespace DwmLists

theorem Inv_iff (s : LState) :
    Inv s ↔ (s.mons.map MonL.num).Nodup ∧ ∀ m ∈ s.mons, MOK s.cmon m := Iff.rfl

theorem alookup_aset_self {α : Type} (l : List (Nat × α)) (k : Nat) (v w : α)
    (h : alookup l k = some w) : alookup (aset l k v) k = some v := by
  induction l with
  | nil => simp [alookup] at h
  | cons hd tl ih =>
    obtain ⟨k0, v0⟩ := hd
    by_cases hk : k0 = k
    · simp [alookup, aset, hk]
    · simp only [alookup, aset, if_neg hk] at h ⊢
      exact ih h

theorem alookup_aset_ne {α : Type} (l : List (Nat × α)) (k k' : Nat) (v : α) (h : k' ≠ k) :
    alookup (aset l k v) k' = alookup l k' := by
  induction l with
  | nil => rfl
  | cons hd tl ih =>
    obtain ⟨k0, v0⟩ := hd
    by_cases hk : k0 = k
    · subst hk
      have hne : ¬ (k0 = k') := fun he => h he.symm
      simp [aset, alookup, hne]
    · simp only [aset, if_neg hk, alookup]
      by_cases hk0 : k0 = k'
      · simp [hk0]
      · simp [hk0, ih]

theorem mem_of_mem_removeFirstL {l : List Nat} {x k : Nat} (h : x ∈ removeFirst l k) :
    x ∈ l := by
  induction l with
  | nil => simp [removeFirst] at h
  | cons a rest ih =>
    by_cases ha : a = k
    · rw [removeFirst, if_pos ha] at h
      exact List.mem_cons_of_mem _ h
    · rw [removeFirst, if_neg ha] at h
      rcases List.mem_cons.mp h with h1 | h1
      · exact h1 ▸ List.mem_cons_self ..
      · exact List.mem_cons_of_mem _ (ih h1)

theorem mem_removeFirstL_of_ne {l : List Nat} {x k : Nat} (hx : x ≠ k) :
    x ∈ removeFirst l k ↔ x ∈ l := by
  induction l with
  | nil => simp [removeFirst]
  | cons a rest ih =>
    by_cases ha : a = k
    · subst ha
      rw [removeFirst, if_pos rfl]
      simp [List.mem_cons, hx]
    · rw [removeFirst, if_neg ha]
      simp [List.mem_cons, ih]

theorem nodup_removeFirstL {l : List Nat} (k : Nat) (h : l.Nodup) :
    (removeFirst l k).Nodup := by
  induction l with
  | nil => simp [removeFirst]
  | cons a rest ih =>
    rw [List.nodup_cons] at h
    by_cases ha : a = k
    · rw [removeFirst, if_pos ha]
      exact h.2
    · rw [removeFirst, if_neg ha]
      exact List.nodup_cons.mpr ⟨fun hmem => h.1 (mem_of_mem_removeFirstL hmem), ih h.2⟩

theorem not_mem_removeFirstL_self {l : List Nat} (k : Nat) (h : l.Nodup) :
    k ∉ removeFirst l k := by
  induction l with
  | nil => simp [removeFirst]
  | cons a rest ih =>
    rw [List.nodup_cons] at h
    by_cases ha : a = k
    · rw [removeFirst, if_pos ha]
      subst ha
      exact h.1
    · rw [removeFirst, if_neg ha]
      intro hmem
      rcases List.mem_cons.mp hmem with h1 | h1
      · exact ha h1.symm
      · exact ih h.2 h1

theorem updMon_map_num (l : List MonL) (n : Int) (f : MonL → MonL)
    (hf : ∀ m, (f m).num = m.num) :
    (updMon l n f).map MonL.num = l.map MonL.num := by
  induction l with
  | nil => rfl
  | cons m rest ih =>
    by_cases hm : m.num = n
    · rw [updMon, if_pos hm]
      simp [hf]
    · rw [updMon, if_neg hm]
      simp [ih]

theorem mem_updMon_nodup (l : List MonL) (n : Int) (f : MonL → MonL)
    (hd : (l.map MonL.num).Nodup) (m' : MonL) (hm : m' ∈ updMon l n f) :
    (m' ∈ l ∧ m'.num ≠ n) ∨ ∃ m, m ∈ l ∧ m.num = n ∧ m' = f m := by
  induction l with
  | nil => simp [updMon] at hm
  | cons m rest ih =>
    rw [List.map_cons, List.nodup_cons] at hd
    by_cases hmn : m.num = n
    · rw [updMon, if_pos hmn] at hm
      rcases List.mem_cons.mp hm with h1 | h1
      · exact Or.inr ⟨m, List.mem_cons_self .., hmn, h1⟩
      · refine Or.inl ⟨List.mem_cons_of_mem _ h1, fun he => hd.1 ?_⟩
        rw [hmn, ← he]
        exact List.mem_map_of_mem _ h1
    · rw [updMon, if_neg hmn] at hm
      rcases List.mem_cons.mp hm with h1 | h1
      · subst h1
        exact Or.inl ⟨List.mem_cons_self .., hmn⟩
      · rcases ih hd.2 h1 with h2 | ⟨m0, hm0, hn0, he0⟩
        · exact Or.inl ⟨List.mem_cons_of_mem _ h2.1, h2.2⟩
        · exact Or.inr ⟨m0, List.mem_cons_of_mem _ hm0, hn0, he0⟩

theorem updMon_updMon (l : List MonL) (n : Int) (f g : MonL → MonL)
    (hf : ∀ m, (f m).num = m.num) :
    updMon (updMon l n f) n g = updMon l n (fun m => g (f m)) := by
  induction l with
  | nil => rfl
  | cons m rest ih =>
    by_cases hm : m.num = n
    · simp [updMon, hf, hm]
    · simp [updMon, hm, ih]

theorem findMon_mem {l : List MonL} {n : Int} {m : MonL} (h : findMon l n = some m) :
    m ∈ l ∧ m.num = n := by
  induction l with
  | nil => simp [findMon] at h
  | cons m0 rest ih =>
    rw [findMon] at h
    by_cases hm : m0.num = n
    · rw [if_pos hm] at h
      cases h
      exact ⟨List.mem_cons_self .., hm⟩
    · rw [if_neg hm] at h
      obtain ⟨h1, h2⟩ := ih h
      exact ⟨List.mem_cons_of_mem _ h1, h2⟩

theorem firstVisibleL_mem {s : LState} {m : MonL} {l : List Nat} {cid : Nat}
    (h : firstVisibleL s m l = some cid) : cid ∈ l := by
  induction l with
  | nil => simp [firstVisibleL] at h
  | cons a rest ih =>
    rw [firstVisibleL] at h
    by_cases hv : visibleIn s m a
    · rw [if_pos hv] at h
      cases h
      exact List.mem_cons_self ..
    · rw [if_neg hv] at h
      exact List.mem_cons_of_mem _ (ih h)

theorem eq_of_num_eqL {l : List MonL} (hd : (l.map MonL.num).Nodup) {m1 m2 : MonL}
    (h1 : m1 ∈ l) (h2 : m2 ∈ l) (he : m1.num = m2.num) : m1 = m2 :=
  List.inj_on_of_nodup_map hd h1 h2 he

theorem MOK_fields (cm : List (Nat × Int)) (m m' : MonL)
    (hn : m'.num = m.num) (hc : m'.clients = m.clients) (hs : m'.stack = m.stack)
    (h : MOK cm m) : MOK cm m' := by
  unfold MOK at h ⊢
  rw [hn, hc, hs]
  exact h

theorem MOK_remove (cm : List (Nat × Int)) (m m' : MonL) (cid : Nat)
    (hn : m'.num = m.num) (hc : m'.clients = removeFirst m.clients cid)
    (hs : m'.stack = removeFirst m.stack cid) (h : MOK cm m) : MOK cm m' := by
  obtain ⟨h1, h2, h3, h4⟩ := h
  unfold MOK
  rw [hn, hc, hs]
  refine ⟨nodup_removeFirstL _ h1, nodup_removeFirstL _ h2, ?_, ?_⟩
  · intro x hx
    have hxs : x ∈ m.stack := mem_of_mem_removeFirstL hx
    have hxne : x ≠ cid := by
      intro he
      subst he
      exact not_mem_removeFirstL_self _ h2 hx
    exact (mem_removeFirstL_of_ne hxne).mpr (h3 x hxs)
  · intro x hx
    have hxc : x ∈ m.clients := mem_of_mem_removeFirstL hx
    have hxne : x ≠ cid := by
      intro he
      subst he
      exact not_mem_removeFirstL_self _ h1 hx
    exact ⟨(mem_removeFirstL_of_ne hxne).mpr (h4 x hxc).1, (h4 x hxc).2⟩

theorem MOK_cons (cm : List (Nat × Int)) (m m' : MonL) (cid : Nat)
    (hn : m'.num = m.num) (hc : m'.clients = cid :: m.clients)
    (hs : m'.stack = cid :: m.stack)
    (hfc : cid ∉ m.clients) (hlk : alookup cm cid = some m.num)
    (h : MOK cm m) : MOK cm m' := by
  obtain ⟨h1, h2, h3, h4⟩ := h
  have hfs : cid ∉ m.stack := fun hmem => hfc (h3 cid hmem)
  unfold MOK
  rw [hn, hc, hs]
  refine ⟨List.nodup_cons.mpr ⟨hfc, h1⟩, List.nodup_cons.mpr ⟨hfs, h2⟩, ?_, ?_⟩
  · intro x hx
    rcases List.mem_cons.mp hx with h5 | h5
    · exact h5 ▸ List.mem_cons_self ..
    · exact List.mem_cons_of_mem _ (h3 x h5)
  · intro x hx
    rcases List.mem_cons.mp hx with h5 | h5
    · subst h5
      exact ⟨List.mem_cons_self .., hlk⟩
    · exact ⟨List.mem_cons_of_mem _ (h4 x h5).1, (h4 x h5).2⟩

theorem MOK_promote (cm : List (Nat × Int)) (m m' : MonL) (cid : Nat)
    (hn : m'.num = m.num) (hc : m'.clients = m.clients)
    (hs : m'.stack = cid :: removeFirst m.stack cid)
    (hcid : cid ∈ m.clients) (h : MOK cm m) : MOK cm m' := by
  obtain ⟨h1, h2, h3, h4⟩ := h
  unfold MOK
  rw [hn, hc, hs]
  refine ⟨h1, List.nodup_cons.mpr
    ⟨not_mem_removeFirstL_self _ h2, nodup_removeFirstL _ h2⟩, ?_, ?_⟩
  · intro x hx
    rcases List.mem_cons.mp hx with h5 | h5
    · exact h5 ▸ hcid
    · exact h3 x (mem_of_mem_removeFirstL h5)
  · intro x hx
    by_cases hxe : x = cid
    · subst hxe
      exact ⟨List.mem_cons_self .., (h4 x hx).2⟩
    · exact ⟨List.mem_cons_of_mem _ ((mem_removeFirstL_of_ne hxe).mpr (h4 x hx).1),
        (h4 x hx).2⟩

theorem MOK_cmon_congr (cm cm' : List (Nat × Int)) (m : MonL)
    (hl : ∀ x ∈ m.clients, alookup cm' x = alookup cm x) (h : MOK cm m) : MOK cm' m := by
  obtain ⟨h1, h2, h3, h4⟩ := h
  exact ⟨h1, h2, h3, fun x hx => ⟨(h4 x hx).1, (hl x hx).trans (h4 x hx).2⟩⟩

end DwmLists

namespace DwmLists

theorem Inv_mons_remove (mons : List MonL) (cmonl : List (Nat × Int)) (ct : List (Nat × Nat))
    (sel : Int) (n : Int) (g : MonL → MonL) (cid : Nat)
    (hnum : ∀ m, (g m).num = m.num)
    (hcl : ∀ m, (g m).clients = removeFirst m.clients cid)
    (hst : ∀ m, (g m).stack = removeFirst m.stack cid)
    (h : Inv { mons := mons, cmon := cmonl, ctags := ct, selmon := sel }) :
    Inv { mons := updMon mons n g, cmon := cmonl, ctags := ct, selmon := sel } := by
  rw [Inv_iff] at h ⊢
  dsimp only at h ⊢
  obtain ⟨hd, hmok⟩ := h
  refine ⟨?_, ?_⟩
  · rw [updMon_map_num _ _ _ hnum]
    exact hd
  · intro m' hm'
    rcases mem_updMon_nodup _ _ _ hd m' hm' with ⟨h1, _⟩ | ⟨m0, hm0, _, he0⟩
    · exact hmok m' h1
    · subst he0
      exact MOK_remove _ m0 _ cid (hnum m0) (hcl m0) (hst m0) (hmok m0 hm0)

theorem Inv_mons_cons (mons : List MonL) (cmonl : List (Nat × Int)) (ct : List (Nat × Nat))
    (sel : Int) (n : Int) (g : MonL → MonL) (cid : Nat)
    (hnum : ∀ m, (g m).num = m.num)
    (hcl : ∀ m, (g m).clients = cid :: m.clients)
    (hst : ∀ m, (g m).stack = cid :: m.stack)
    (hfresh : ∀ m ∈ mons, cid ∉ m.clients)
    (hlk : alookup cmonl cid = some n)
    (h : Inv { mons := mons, cmon := cmonl, ctags := ct, selmon := sel }) :
    Inv { mons := updMon mons n g, cmon := cmonl, ctags := ct, selmon := sel } := by
  rw [Inv_iff] at h ⊢
  dsimp only at h ⊢
  obtain ⟨hd, hmok⟩ := h
  refine ⟨?_, ?_⟩
  · rw [updMon_map_num _ _ _ hnum]
    exact hd
  · intro m' hm'
    rcases mem_updMon_nodup _ _ _ hd m' hm' with ⟨h1, _⟩ | ⟨m0, hm0, hn0, he0⟩
    · exact hmok m' h1
    · subst he0
      exact MOK_cons _ m0 _ cid (hnum m0) (hcl m0) (hst m0) (hfresh m0 hm0)
        (by rw [hn0]; exact hlk) (hmok m0 hm0)

theorem Inv_mons_promote (mons : List MonL) (cmonl : List (Nat × Int)) (ct : List (Nat × Nat))
    (sel : Int) (n : Int) (g : MonL → MonL) (cid : Nat)
    (hnum : ∀ m, (g m).num = m.num)
    (hcl : ∀ m, (g m).clients = m.clients)
    (hst : ∀ m, (g m).stack = cid :: removeFirst m.stack cid)
    (hcid : ∀ m ∈ mons, m.num = n → cid ∈ m.clients)
    (h : Inv { mons := mons, cmon := cmonl, ctags := ct, selmon := sel }) :
    Inv { mons := updMon mons n g, cmon := cmonl, ctags := ct, selmon := sel } := by
  rw [Inv_iff] at h ⊢
  dsimp only at h ⊢
  obtain ⟨hd, hmok⟩ := h
  refine ⟨?_, ?_⟩
  · rw [updMon_map_num _ _ _ hnum]
    exact hd
  · intro m' hm'
    rcases mem_updMon_nodup _ _ _ hd m' hm' with ⟨h1, _⟩ | ⟨m0, hm0, hn0, he0⟩
    · exact hmok m' h1
    · subst he0
      exact MOK_promote _ m0 _ cid (hnum m0) (hcl m0) (hst m0) (hcid m0 hm0 hn0)
        (hmok m0 hm0)

theorem Inv_mons_sel (mons : List MonL) (cmonl : List (Nat × Int)) (ct : List (Nat × Nat))
    (sel : Int) (n : Int) (g : MonL → MonL)
    (hnum : ∀ m, (g m).num = m.num)
    (hcl : ∀ m, (g m).clients = m.clients)
    (hst : ∀ m, (g m).stack = m.stack)
    (h : Inv { mons := mons, cmon := cmonl, ctags := ct, selmon := sel }) :
    Inv { mons := updMon mons n g, cmon := cmonl, ctags := ct, selmon := sel } := by
  rw [Inv_iff] at h ⊢
  dsimp only at h ⊢
  obtain ⟨hd, hmok⟩ := h
  refine ⟨?_, ?_⟩
  · rw [updMon_map_num _ _ _ hnum]
    exact hd
  · intro m' hm'
    rcases mem_updMon_nodup _ _ _ hd m' hm' with ⟨h1, _⟩ | ⟨m0, hm0, _, he0⟩
    · exact hmok m' h1
    · subst he0
      exact MOK_fields _ m0 _ (hnum m0) (hcl m0) (hst m0) (hmok m0 hm0)

theorem Inv_cmon_set (mons : List MonL) (cmonl cmonl' : List (Nat × Int))
    (ct ct' : List (Nat × Nat)) (sel : Int) (cid : Nat)
    (hlk : ∀ x, x ≠ cid → alookup cmonl' x = alookup cmonl x)
    (hfresh : ∀ m ∈ mons, cid ∉ m.clients)
    (h : Inv { mons := mons, cmon := cmonl, ctags := ct, selmon := sel }) :
    Inv { mons := mons, cmon := cmonl', ctags := ct', selmon := sel } := by
  rw [Inv_iff] at h ⊢
  dsimp only at h ⊢
  obtain ⟨hd, hmok⟩ := h
  exact ⟨hd, fun m hm => MOK_cmon_congr _ _ _
    (fun x hx => hlk x (fun he => hfresh m hm (he ▸ hx))) (hmok m hm)⟩

theorem notmem_after_remove (mons : List MonL) (cmonl : List (Nat × Int))
    (ct : List (Nat × Nat)) (sel : Int) (n : Int) (g : MonL → MonL) (cid : Nat)
    (hcl : ∀ m, (g m).clients = removeFirst m.clients cid)
    (hst : ∀ m, (g m).stack = removeFirst m.stack cid)
    (hlk : alookup cmonl cid = some n)
    (h : Inv { mons := mons, cmon := cmonl, ctags := ct, selmon := sel }) :
    ∀ m' ∈ updMon mons n g, cid ∉ m'.clients ∧ cid ∉ m'.stack := by
  rw [Inv_iff] at h
  dsimp only at h
  obtain ⟨hd, hmok⟩ := h
  intro m' hm'
  rcases mem_updMon_nodup _ _ _ hd m' hm' with ⟨h1, h2⟩ | ⟨m0, hm0, _, he0⟩
  · have hnc : cid ∉ m'.clients := by
      intro hc
      have h3 := ((hmok m' h1).2.2.2 cid hc).2
      rw [hlk] at h3
      exact h2 (Option.some_inj.mp h3).symm
    exact ⟨hnc, fun hs2 => hnc ((hmok m' h1).2.2.1 cid hs2)⟩
  · subst he0
    rw [hcl m0, hst m0]
    exact ⟨not_mem_removeFirstL_self _ (hmok m0 hm0).1,
      not_mem_removeFirstL_self _ (hmok m0 hm0).2.1⟩

end DwmLists

namespace DwmLists

theorem detachPair_inv (s : LState) (cid : Nat) (h : Inv s) :
    Inv (detachstack (detach s cid) cid) := by
  rw [detach]
  cases hlk : alookup s.cmon cid with
  | none =>
    dsimp only
    rw [detachstack, hlk]
    exact h
  | some cm =>
    dsimp only
    rw [detachstack]
    dsimp only
    rw [hlk]
    dsimp only
    rw [updMon_updMon]
    · apply Inv_mons_remove
      · intro m
        dsimp only
        split <;> rfl
      · intro m
        dsimp only
        split <;> rfl
      · intro m
        dsimp only
        split <;> rfl
      · exact h
    · intro m
      rfl

theorem detachPair_notmem (s : LState) (cid : Nat) (cm : Int)
    (hlk : alookup s.cmon cid = some cm) (h : Inv s) :
    ∀ m ∈ (detachstack (detach s cid) cid).mons, cid ∉ m.clients ∧ cid ∉ m.stack := by
  rw [detach, hlk]
  dsimp only
  rw [detachstack]
  dsimp only
  rw [hlk]
  dsimp only
  rw [updMon_updMon]
  · intro m' hm'
    refine notmem_after_remove s.mons s.cmon s.ctags s.selmon cm _ cid ?_ ?_ hlk ?_ m' hm'
    · intro m
      dsimp only
      split <;> rfl
    · intro m
      dsimp only
      split <;> rfl
    · exact h
  · intro m
    rfl

theorem detachPair_eq' (s : LState) (cid : Nat) :
    ∃ mons2, detachstack (detach s cid) cid
      = { mons := mons2, cmon := s.cmon, ctags := s.ctags, selmon := s.selmon } := by
  rw [detach]
  cases hlk : alookup s.cmon cid with
  | none =>
    dsimp only
    rw [detachstack, hlk]
    exact ⟨s.mons, rfl⟩
  | some cm =>
    dsimp only
    rw [detachstack]
    dsimp only
    rw [hlk]
    dsimp only
    exact ⟨_, rfl⟩

theorem attachFresh_inv (s : LState) (cid : Nat) (n : Int)
    (hlk : alookup s.cmon cid = some n)
    (hfresh : ∀ m ∈ s.mons, cid ∉ m.clients)
    (h : Inv s) : Inv (attachstack (attach s cid) cid) := by
  rw [attach, hlk]
  dsimp only
  rw [attachstack]
  dsimp only
  rw [hlk]
  dsimp only
  rw [updMon_updMon]
  · apply Inv_mons_cons
    · intro m
      rfl
    · intro m
      rfl
    · intro m
      rfl
    · exact hfresh
    · exact hlk
    · exact h
  · intro m
    rfl

theorem promote_shape (s : LState) (cid : Nat) (n : Int)
    (hlk : alookup s.cmon cid = some n) :
    ∃ g : MonL → MonL,
      attachstack (detachstack s cid) cid = { s with mons := updMon s.mons n g } ∧
      (∀ m, (g m).num = m.num) ∧ (∀ m, (g m).clients = m.clients) ∧
      (∀ m, (g m).stack = cid :: removeFirst m.stack cid) := by
  rw [detachstack, hlk]
  dsimp only
  rw [attachstack]
  dsimp only
  rw [hlk]
  dsimp only
  rw [updMon_updMon]
  · refine ⟨_, rfl, ?_, ?_, ?_⟩
    · intro m
      dsimp only
      split <;> rfl
    · intro m
      dsimp only
      split <;> rfl
    · intro m
      dsimp only
      split <;> rfl
  · intro m
    dsimp only
    split <;> rfl

theorem focusNull_inv (s : LState) (h : Inv s) : Inv (focusNull s) := by
  rw [focusNull]
  cases hfm : findMon s.mons s.selmon with
  | none => exact h
  | some m =>
    dsimp only
    cases hfv : firstVisibleL s m m.stack with
    | none =>
      dsimp only
      apply Inv_mons_sel
      · intro m2
        rfl
      · intro m2
        rfl
      · intro m2
        rfl
      · exact h
    | some cid =>
      dsimp only
      obtain ⟨hm_mem, hm_num⟩ := findMon_mem hfm
      have hcs : cid ∈ m.stack := firstVisibleL_mem hfv
      have hmok := ((Inv_iff s).mp h).2 m hm_mem
      have hcc : cid ∈ m.clients := hmok.2.2.1 cid hcs
      have hlk : alookup s.cmon cid = some s.selmon := by
        rw [← hm_num]
        exact (hmok.2.2.2 cid hcc).2
      obtain ⟨g, hgeq, hgn, hgc, hgs⟩ := promote_shape s cid s.selmon hlk
      rw [hgeq]
      dsimp only
      rw [updMon_updMon]
      · apply Inv_mons_promote
        · intro m2
          dsimp only
          exact hgn m2
        · intro m2
          dsimp only
          exact hgc m2
        · intro m2
          dsimp only
          exact hgs m2
        · intro m2 hm2 hn2
          have he : m2 = m := eq_of_num_eqL ((Inv_iff s).mp h).1 hm2 hm_mem
            (by rw [hn2, hm_num])
          rw [he]
          exact hcc
        · exact h
      · exact hgn

end DwmLists

namespace DwmLists

theorem sendmon_inv (s : LState) (cid : Nat) (mnum : Int) (h : Inv s) :
    Inv (sendmon s cid mnum) := by
  rw [sendmon]
  cases hlk : alookup s.cmon cid with
  | none => exact h
  | some cm =>
    cases hfm : findMon s.mons mnum with
    | none => exact h
    | some target =>
      dsimp only
      by_cases hcm : cm = mnum
      · rw [if_pos hcm]
        exact h
      · rw [if_neg hcm]
        obtain ⟨mons2, heq⟩ := detachPair_eq' s cid
        have h2 : Inv (detachstack (detach s cid) cid) := detachPair_inv s cid h
        have hfr2 := detachPair_notmem s cid cm hlk h
        rw [heq] at h2 hfr2
        rw [heq]
        dsimp only at h2 hfr2 ⊢
        apply focusNull_inv
        apply attachFresh_inv _ cid mnum
        · exact alookup_aset_self _ _ _ cm hlk
        · intro m hm
          exact (hfr2 m hm).1
        · apply Inv_cmon_set mons2 s.cmon _ s.ctags _ s.selmon cid
          · intro x hx
            exact alookup_aset_ne _ _ _ _ hx
          · intro m hm
            exact (hfr2 m hm).1
          · exact h2

theorem applyPaired_inv (s : LState) (op : PairedOp) (h : Inv s) :
    Inv (applyPaired s op) := by
  cases op with
  | attachPairO cid =>
    rw [applyPaired]
    cases hlk : alookup s.cmon cid with
    | none => exact h
    | some mnum =>
      dsimp only
      cases hfm : findMon s.mons mnum with
      | none => exact h
      | some m =>
        dsimp only
        by_cases hg : cid ∈ m.clients ∨ cid ∈ m.stack
        · rw [if_pos hg]
          exact h
        · rw [if_neg hg]
          obtain ⟨hd, hmok⟩ := (Inv_iff s).mp h
          have hfresh : ∀ m' ∈ s.mons, cid ∉ m'.clients := by
            intro m' hm' hc
            have h3 := ((hmok m' hm').2.2.2 cid hc).2
            rw [hlk] at h3
            have hnum : m'.num = mnum := (Option.some_inj.mp h3).symm
            have he : m' = m := eq_of_num_eqL hd hm' (findMon_mem hfm).1
              (hnum.trans (findMon_mem hfm).2.symm)
            exact hg (Or.inl (he ▸ hc))
          exact attachFresh_inv s cid mnum hlk hfresh h
  | detachPairO cid =>
    rw [applyPaired]
    exact detachPair_inv s cid h
  | sendmonO cid mnum =>
    rw [applyPaired]
    exact sendmon_inv s cid mnum h

/-- C1 (amended): `Inv` is preserved by every sequence of the paired
operations `manage`-attach (attach; attachstack on a fresh client),
`unmanage`-detach (detach; detachstack) and `sendmon`. -/
theorem C1_list_invariant (s : LState) (ops : List PairedOp) (h : Inv s) :
    Inv (applyPairedSeq s ops) := by
  induction ops generalizing s with
  | nil => exact h
  | cons op rest ih =>
    rw [applyPairedSeq]
    exact ih _ (applyPaired_inv s op h)

/-- Witness for C1 amended: a `sendmon` then an `unmanage` pair on the
two-monitor fixture, starting from a state satisfying `Inv`. -/
theorem C1_list_invariant_witness :
    Inv (applyPairedSeq twoMonState
      [PairedOp.sendmonO 1 1, PairedOp.detachPairO 2, PairedOp.attachPairO 1]) :=
  C1_list_invariant twoMonState
    [PairedOp.sendmonO 1 1, PairedOp.detachPairO 2, PairedOp.attachPairO 1] (by decide)

/-- C1: the claim quantifies over arbitrary sequences of the five raw list
operations; a bare `attach` of an already-attached client duplicates it in
its monitor's client list, so the invariant is not preserved. -/
theorem C1_raw_attach_counterexample :
    Inv rawState ∧ ¬ Inv (applyRawSeq rawState [RawOp.attachO 1]) := by
  decide

end DwmLists
